import Mathlib

/-!
# MVDODBC.c: a shallow embedding

The ODBC connector `MVDODBC.c` is embedded as pure Lean functions.  The ODBC
driver is an external collaborator: every driver entry point the code calls is
an explicit response supplied by the caller of the model, and the calls the
code issues are recorded in a trace.  C strings are Lean strings whose
characters stand for single bytes; byte buffers are lists of naturals.
Logging (`odbc_log`, `odbc_log_data`) writes to a side file only and is left
out.
-/

namespace MVDODBC

/-! ## Constants of `sql.h` / `sqlext.h` -/

/-- The return code `SQL_SUCCESS` of sql.h. -/
def SQL_SUCCESS : Int := 0
/-- The return code `SQL_SUCCESS_WITH_INFO` of sql.h. -/
def SQL_SUCCESS_WITH_INFO : Int := 1
/-- The return code `SQL_NO_DATA` of sql.h. -/
def SQL_NO_DATA : Int := 100
/-- The return code `SQL_NO_DATA_FOUND` of sqlext.h, an alias of `SQL_NO_DATA`. -/
def SQL_NO_DATA_FOUND : Int := 100
/-- The return code `SQL_ERROR` of sql.h. -/
def SQL_ERROR : Int := -1
/-- The return code `SQL_NEED_DATA` of sql.h. -/
def SQL_NEED_DATA : Int := 99

/-- The length indicator `SQL_NULL_DATA`. -/
def SQL_NULL_DATA : Int := -1
/-- The length indicator `SQL_NO_TOTAL`. -/
def SQL_NO_TOTAL : Int := -4
/-- The offset `SQL_LEN_DATA_AT_EXEC_OFFSET` of sqlext.h. -/
def SQL_LEN_DATA_AT_EXEC_OFFSET : Int := -100
/-- The sqlext.h expression `SQL_LEN_DATA_AT_EXEC(length)`. -/
def SQL_LEN_DATA_AT_EXEC (length : Int) : Int := -length + SQL_LEN_DATA_AT_EXEC_OFFSET

/-- The handle type `SQL_HANDLE_ENV`. -/
def SQL_HANDLE_ENV : Int := 1
/-- The handle type `SQL_HANDLE_DBC`. -/
def SQL_HANDLE_DBC : Int := 2
/-- The handle type `SQL_HANDLE_STMT`. -/
def SQL_HANDLE_STMT : Int := 3

/-- SQL data type codes. -/
def SQL_CHAR : Int := 1
def SQL_NUMERIC : Int := 2
def SQL_DECIMAL : Int := 3
def SQL_INTEGER : Int := 4
def SQL_SMALLINT : Int := 5
def SQL_FLOAT : Int := 6
def SQL_REAL : Int := 7
def SQL_DOUBLE : Int := 8
def SQL_VARCHAR : Int := 12
def SQL_LONGVARCHAR : Int := -1
def SQL_LONGVARBINARY : Int := -4
def SQL_BIGINT : Int := -5
def SQL_TINYINT : Int := -6
def SQL_BIT : Int := -7

/-- C data type codes. -/
def SQL_C_CHAR : Int := 1
def SQL_C_SLONG : Int := -16
def SQL_C_DOUBLE : Int := 8
def SQL_C_BINARY : Int := -2
def SQL_PARAM_INPUT : Int := 1

/-- Fetch orientations of `SQLExtendedFetch`. -/
def SQL_FETCH_NEXT : Int := 1
def SQL_FETCH_ABSOLUTE : Int := 5
/-- The row status `SQL_ROW_DELETED`. -/
def SQL_ROW_DELETED : Int := 1

/-! ## Machine integers -/

/-- Conversion to `size_t` (32 bits on the Win32 target of this file). -/
def toSizeT (x : Int) : Int := x % 4294967296

/-- Conversion to a 32-bit `int` / `SDWORD` (two's complement). -/
def toInt32 (x : Int) : Int := (x + 2147483648) % 4294967296 - 2147483648

/-- Conversion to the unsigned 32-bit `SQLUINTEGER` / `UDWORD`. -/
def toUInt32 (x : Int) : Int := x % 4294967296

/-- The C function `strlen`, as an `Int`. -/
def strlen (s : String) : Int := (s.length : Int)

/-! ## ODBCDatabase and diagnostics -/

/-- The struct `ODBCDatabase` (handles and the log file left out). -/
structure ODBCDatabase where
  autocommit : Int
  truncate : Int
  forwardonly : Int
  in_transaction : Int
  error : String
  deriving DecidableEq, Repr

/-- The size of `ODBCDatabase.error`, `char error[ 1024 ]`. -/
def ERROR_SIZE : Int := 1024

/-- One diagnostic record as `SQLGetDiagRec` / `SQLError` hands it over with
`SQL_SUCCESS`: the state code, the message text, and the reported text length
`text_length`. -/
structure DiagRec where
  state : String
  text : String
  deriving DecidableEq, Repr

/-- The reported `text_length` of a record delivered with `SQL_SUCCESS`. -/
def DiagRec.text_length (r : DiagRec) : Int := strlen r.text

/-- The diagnostics a handle holds when `odbc_error` is called: `recs` are the
records for which successive `SQLGetDiagRec` calls (index 1, 2, ...) return
`SQL_SUCCESS`; `legacy` is the record `SQLError` returns with `SQL_SUCCESS`,
if any. -/
structure Diag where
  recs : List DiagRec
  legacy : Option DiagRec
  deriving DecidableEq, Repr

/-- The body shared by the do-while loop and the `SQLError` branch of
`odbc_error` (lines 155-167 and 175-187): the state check is evaluated in
`size_t`, the text check in `int`. -/
def appendRecord (acc : String × Int) (r : DiagRec) : String × Int :=
  let acc1 : String × Int :=
    if toSizeT (acc.2 - (strlen r.state + 2)) > 0 then
      (acc.1 ++ r.state ++ ": ", toInt32 (toSizeT (acc.2 - (strlen r.state + 2))))
    else acc
  if acc1.2 - r.text_length > 0 then
    (acc1.1 ++ r.text, acc1.2 - r.text_length)
  else acc1

/-- The function `odbc_error`: the new contents of `db->error`.  A message
longer than 1023 characters is a write past the end of the 1024-byte array. -/
def odbc_error_message (pfx : String) (d : Diag) (handle_type : Int) : String :=
  let remaining : Int := toInt32 (toSizeT (toSizeT (ERROR_SIZE - strlen pfx) - 1))
  match d.recs with
  | r :: rs => ((r :: rs).foldl appendRecord (pfx, remaining)).1
  | [] =>
    match decide (handle_type = SQL_HANDLE_STMT), d.legacy with
    | true, some r => (appendRecord (pfx, remaining) r).1
    | _, _ => pfx ++ "Unknown error"

/-- The function `odbc_error`: returns 0 and the session with its new error text. -/
def odbc_error (db : ODBCDatabase) (pfx : String) (d : Diag) (handle_type : Int) :
    Int × ODBCDatabase :=
  (0, { db with error := odbc_error_message pfx d handle_type })

/-! ## odbc_execute -/

/-- A C `double`, carried from the host to the driver and back but never
computed on: represented by its 64-bit pattern. -/
structure CDouble where
  bits : Nat
  deriving DecidableEq, Repr

/-- A host variable (`mvVariable`) through the three accessors the code uses:
`mvVariable_Value` (bytes, whose count is the reported length),
`mvVariable_Value_Integer` and `mvVariable_Value_Double`. -/
structure MvVariable where
  value : List Nat
  value_integer : Int
  value_double : CDouble
  deriving DecidableEq, Repr

/-- The struct `ODBCParameter`; `data_string` is `none` for the NULL pointer. -/
structure ODBCParameter where
  data_integer : Int
  data_double : CDouble
  data_string : Option (List Nat)
  data_string_length : Int
  cbData : Int
  deriving DecidableEq, Repr

/-- An `ODBCParameter` after `memset( ..., 0, ... )`. -/
def ODBCParameter.zero : ODBCParameter :=
  { data_integer := 0, data_double := ⟨0⟩, data_string := none,
    data_string_length := 0, cbData := 0 }

/-- What the `ParameterValuePtr` argument of `SQLBindParameter` denotes. -/
inductive BindValue where
  | token (param : Int)
  | integer (v : Int)
  | double (v : CDouble)
  | buffer (bytes : List Nat)
  deriving DecidableEq, Repr

/-- The arguments of one `SQLBindParameter` call; `StrLen_or_Ind` is the value
the indicator `cbData` holds when the call is made. -/
structure BindCall where
  ParameterNumber : Int
  InputOutputType : Int
  ValueType : Int
  ParameterType : Int
  ColumnSize : Int
  DecimalDigits : Int
  ParameterValuePtr : BindValue
  BufferLength : Int
  StrLen_or_Ind : Int
  deriving DecidableEq, Repr

/-- The driver calls `odbc_execute` issues, in order. -/
inductive Call where
  | numParams
  | describeParam (ParameterNumber : Int)
  | bindParameter (c : BindCall)
  | execute
  | paramData
  | putData (data : Option (List Nat)) (length : Int)
  deriving DecidableEq, Repr

/-- The answer of `SQLDescribeParam`: return code and the four output values
(`column_size` is a `SQLUINTEGER`). -/
structure ParamDesc where
  ret : Int
  datatype : Int
  column_size : Int
  digits : Int
  nullable : Int
  deriving DecidableEq, Repr

/-- One round of the deferred-parameter handshake as the driver plays it: the
return code and token of `SQLParamData`, the diagnostics the statement holds
after it, and the return code and diagnostics of the `SQLPutData` that answers
it. -/
structure ParamDataStep where
  ret : Int
  token : Int
  diag : Diag
  putRet : Int
  putDiag : Diag
  deriving DecidableEq, Repr

/-- The driver as `odbc_execute` sees it.  `paramData` is the finite script of
`SQLParamData` rounds; once it is used up `SQLParamData` returns
`SQL_SUCCESS`. -/
structure Driver where
  numParamsRet : Int
  numParams : Int
  numParamsDiag : Diag
  describeParam : Int → ParamDesc
  bindParameter : BindCall → Int
  bindDiag : BindCall → Diag
  executeRet : Int
  executeDiag : Diag
  paramData : List ParamDataStep

/-- The `switch ( datatype )` of `odbc_execute` (lines 258-374): the contents
of `parameter_data[ param ]` and the `SQLBindParameter` call of the branch. -/
def bindSlot (db : ODBCDatabase) (param : Int) (datatype column_size digits : Int)
    (var : MvVariable) : ODBCParameter × BindCall :=
  if datatype = SQL_LONGVARCHAR ∨ datatype = SQL_LONGVARBINARY then
    let value_string_length : Int := var.value.length
    let p : ODBCParameter :=
      { ODBCParameter.zero with
        data_string := some var.value
        data_string_length := value_string_length
        cbData := SQL_LEN_DATA_AT_EXEC 0 }
    (p, ⟨param + 1, SQL_PARAM_INPUT, SQL_C_BINARY, datatype, 0, 0, .token param, 0, p.cbData⟩)
  else if datatype = SQL_BIGINT ∨ datatype = SQL_TINYINT ∨ datatype = SQL_SMALLINT
      ∨ datatype = SQL_INTEGER then
    let p : ODBCParameter :=
      { ODBCParameter.zero with data_integer := var.value_integer, cbData := 4 }
    (p, ⟨param + 1, SQL_PARAM_INPUT, SQL_C_SLONG, datatype, 0, 0, .integer p.data_integer, 0,
      p.cbData⟩)
  else if datatype = SQL_BIT then
    let p : ODBCParameter :=
      { ODBCParameter.zero with
        data_integer := if var.value_integer ≠ 0 then 1 else 0
        cbData := 4 }
    (p, ⟨param + 1, SQL_PARAM_INPUT, SQL_C_SLONG, datatype, 0, 0, .integer p.data_integer, 0,
      p.cbData⟩)
  else if datatype = SQL_NUMERIC ∨ datatype = SQL_DECIMAL ∨ datatype = SQL_REAL
      ∨ datatype = SQL_FLOAT ∨ datatype = SQL_DOUBLE then
    let p : ODBCParameter :=
      { ODBCParameter.zero with data_double := var.value_double, cbData := 8 }
    (p, ⟨param + 1, SQL_PARAM_INPUT, SQL_C_DOUBLE, datatype, column_size, digits,
      .double p.data_double, 0, p.cbData⟩)
  else
    let value_string_length : Int := var.value.length
    let cbData : Int :=
      if db.truncate ≠ 0 ∧ column_size ≠ toUInt32 (-1)
          ∧ value_string_length > toInt32 column_size then
        toInt32 column_size
      else
        toInt32 value_string_length
    let p : ODBCParameter :=
      { ODBCParameter.zero with data_string := some var.value, cbData := cbData }
    (p, ⟨param + 1, SQL_PARAM_INPUT, SQL_C_CHAR, datatype, 0, 0, .buffer var.value,
      p.cbData, p.cbData⟩)

/-- The parameter metadata the loop body works with after `SQLDescribeParam`
(lines 238-249): on failure the type defaults to `SQL_CHAR` and the size to
`-1` stored in the unsigned `column_size`. -/
def describeOrDefault (d : ParamDesc) : Int × Int × Int :=
  if d.ret ≠ SQL_SUCCESS then (SQL_CHAR, toUInt32 (-1), 0)
  else (d.datatype, d.column_size, d.digits)

/-- The outcome of the binding loop: whether it ran to its end (`ok`) or left
through `goto error`, the session, the filled `parameter_data` entries and the
driver calls issued. -/
structure BindOutcome where
  ok : Bool
  db : ODBCDatabase
  parameter_data : List ODBCParameter
  trace : List Call
  deriving DecidableEq, Repr

/-- The binding loop of `odbc_execute` (lines 236-375), from index `param` on. -/
def bindParams (db : ODBCDatabase) (drv : Driver) : Int → List MvVariable → BindOutcome
  | _, [] => { ok := true, db := db, parameter_data := [], trace := [] }
  | param, var :: rest =>
    let m := describeOrDefault (drv.describeParam (param + 1))
    let slot := bindSlot db param m.1 m.2.1 m.2.2 var
    if drv.bindParameter slot.2 = SQL_ERROR then
      { ok := false
        db := (odbc_error db "SQLBindParameter: " (drv.bindDiag slot.2) SQL_HANDLE_STMT).2
        parameter_data := [slot.1]
        trace := [.describeParam (param + 1), .bindParameter slot.2] }
    else
      let r := bindParams db drv (param + 1) rest
      { r with
        parameter_data := slot.1 :: r.parameter_data
        trace := .describeParam (param + 1) :: .bindParameter slot.2 :: r.trace }

/-- The array access `parameter_data[ param ]`; an index outside the array
reads memory the program never wrote, modelled as a zeroed entry. -/
def paramAt (parameter_data : List ODBCParameter) (param : Int) : ODBCParameter :=
  if 0 ≤ param then parameter_data.getD param.toNat ODBCParameter.zero
  else ODBCParameter.zero

/-- The outcome of the `while ( retcode == SQL_NEED_DATA )` loop. -/
structure HandshakeOutcome where
  ok : Bool
  db : ODBCDatabase
  trace : List Call
  deriving DecidableEq, Repr

/-- The body of `while ( retcode == SQL_NEED_DATA )` (lines 383-408), entered
with `retcode == SQL_NEED_DATA` and the driver rounds still to come. -/
def handshake (db : ODBCDatabase) (parameter_data : List ODBCParameter) :
    List ParamDataStep → HandshakeOutcome
  | [] => { ok := true, db := db, trace := [.paramData] }
  | s :: rest =>
    if s.ret = SQL_NEED_DATA then
      let param := toInt32 s.token
      let p := paramAt parameter_data param
      let db1 :=
        if s.putRet ≠ SQL_SUCCESS then (odbc_error db "SQLPutData: " s.putDiag SQL_HANDLE_STMT).2
        else db
      let r := handshake db1 parameter_data rest
      { r with trace := .paramData :: .putData p.data_string p.data_string_length :: r.trace }
    else if s.ret = SQL_ERROR then
      { ok := false
        db := (odbc_error db "SQLParamData: " s.diag SQL_HANDLE_STMT).2
        trace := [.paramData] }
    else
      { ok := true, db := db, trace := [.paramData] }

/-- The result of `odbc_execute`: the return value, the session (with its
last-diagnostic text) and the driver calls issued. -/
structure ExecResult where
  ret : Int
  db : ODBCDatabase
  trace : List Call
  deriving DecidableEq, Repr

/-- The text `sprintf` writes for the count mismatch (line 232). -/
def mismatchMessage (numparams bind_count : Int) : String :=
  "Input parameter count mismatch: Found " ++ toString numparams ++ ", expected "
    ++ toString bind_count

/-- The function `odbc_execute`. -/
def odbc_execute (db : ODBCDatabase) (drv : Driver) (input : List MvVariable) : ExecResult :=
  let numparams : Int := input.length
  if drv.numParamsRet ≠ SQL_SUCCESS then
    { ret := 0
      db := (odbc_error db "SQLNumParams: " drv.numParamsDiag SQL_HANDLE_STMT).2
      trace := [.numParams] }
  else if drv.numParams ≠ numparams then
    { ret := 0
      db := { db with error := mismatchMessage numparams drv.numParams }
      trace := [.numParams] }
  else
    let b := bindParams db drv 0 input
    if b.ok = false then
      { ret := 0, db := b.db, trace := .numParams :: b.trace }
    else if drv.executeRet = SQL_ERROR then
      { ret := 0
        db := (odbc_error b.db "SQLExecute: " drv.executeDiag SQL_HANDLE_STMT).2
        trace := .numParams :: (b.trace ++ [.execute]) }
    else if drv.executeRet = SQL_NEED_DATA then
      let h := handshake b.db b.parameter_data drv.paramData
      { ret := if h.ok then 1 else 0
        db := h.db
        trace := .numParams :: (b.trace ++ .execute :: h.trace) }
    else
      { ret := 1, db := b.db, trace := .numParams :: (b.trace ++ [.execute]) }

/-! ## Result variables and views -/

/-- The enum `ODBCDatabaseVariableType`. -/
inductive ODBCDatabaseVariableType where
  | ODBC_INTEGER
  | ODBC_DOUBLE
  | ODBC_STRING
  | ODBC_BLOB
  deriving DecidableEq, Repr

open ODBCDatabaseVariableType

/-- The struct `ODBCDatabaseVariable` (the statement handle left out);
`data_string` is `none` for the NULL pointer. -/
structure ODBCDatabaseVariable where
  type : ODBCDatabaseVariableType
  column : Int
  data_integer : Int
  data_double : CDouble
  data_string : Option (List Nat)
  data_string_size : Int
  cbData : Int
  data_blob_col : Int
  deriving DecidableEq, Repr

/-- An `ODBCDatabaseVariable` after `memset( ..., 0, ... )`. -/
def ODBCDatabaseVariable.zero : ODBCDatabaseVariable :=
  { type := ODBC_INTEGER, column := 0, data_integer := 0, data_double := ⟨0⟩,
    data_string := none, data_string_size := 0, cbData := 0, data_blob_col := 0 }

/-- The struct `ODBCDatabaseView` (the statement handle left out). -/
structure ODBCDatabaseView where
  db : ODBCDatabase
  forwardonly : Int
  recno : ODBCDatabaseVariable
  eof : ODBCDatabaseVariable
  deleted : ODBCDatabaseVariable
  deriving DecidableEq, Repr

/-! ## odbc_load_row -/

/-- The answer of one `SQLExtendedFetch`: the return code, the row status the
driver stores in `rgfStatus` (`none` when it leaves the word untouched) and
the diagnostics the statement holds afterwards. -/
structure FetchResult where
  ret : Int
  status : Option Int
  diag : Diag
  deriving DecidableEq, Repr

/-- One `SQLExtendedFetch` call: orientation and row argument. -/
structure FetchCall where
  fFetchType : Int
  irow : Int
  deriving DecidableEq, Repr

/-- The result of `odbc_load_row`: return value, view, driver state and the
fetch calls issued, in order. -/
structure LoadResult (σ : Type) where
  ret : Int
  view : ODBCDatabaseView
  drv : σ
  fetches : List FetchCall

/-- The state of the forward-only loop between two iterations. -/
structure LoopState (σ : Type) where
  view : ODBCDatabaseView
  drv : σ
  rgfStatus : Int
  fetches : List FetchCall

/-- The `while` loop of the forward-only branch (lines 553-562), run for at
most `fuel` iterations: `Except.error` is the `return odbc_error( ... )` exit,
`Except.ok` the state in which the loop was left.  The increment cannot
overflow: it is guarded by `recno < row` with `row` an `int`. -/
def forwardLoop {σ : Type} (fetch : σ → FetchCall → FetchResult × σ) (row : Int) :
    Nat → LoopState σ → Except (LoopState σ) (LoopState σ)
  | 0, st => .ok st
  | fuel + 1, st =>
    if st.view.eof.data_integer = 0 ∧ st.view.recno.data_integer < row then
      let recno1 := st.view.recno.data_integer + 1
      let view1 := { st.view with recno := { st.view.recno with data_integer := recno1 } }
      let call : FetchCall := ⟨SQL_FETCH_NEXT, toInt32 (row - recno1)⟩
      let r := fetch st.drv call
      let status := r.1.status.getD st.rgfStatus
      if r.1.ret = SQL_ERROR then
        .error
          { view := { view1 with
                      db := (odbc_error view1.db "SQLExtendedFetch: " r.1.diag SQL_HANDLE_STMT).2 }
            drv := r.2, rgfStatus := status, fetches := st.fetches ++ [call] }
      else if r.1.ret = SQL_NO_DATA_FOUND then
        forwardLoop fetch row fuel
          { view := { view1 with eof := { view1.eof with data_integer := 1 } }
            drv := r.2, rgfStatus := status, fetches := st.fetches ++ [call] }
      else
        forwardLoop fetch row fuel
          { view := view1, drv := r.2, rgfStatus := status, fetches := st.fetches ++ [call] }
    else .ok st

/-- Lines 574-581 of `odbc_load_row`: the deleted flag is set from `rgfStatus`
and the function returns 1. -/
def finishLoad {σ : Type} (st : LoopState σ) : LoadResult σ :=
  { ret := 1
    view := { st.view with
              deleted := { st.view.deleted with
                           data_integer := if st.rgfStatus = SQL_ROW_DELETED then 1 else 0 } }
    drv := st.drv
    fetches := st.fetches }

/-- The function `odbc_load_row`.  `fetch` is the driver's `SQLExtendedFetch`
on the statement, `drv` the driver state, and `rgfStatus` the value the
uninitialised local `rgfStatus` happens to hold on entry.  The forward-only
loop runs at most `row - recno` times, since every iteration increments
`recno`. -/
def odbc_load_row {σ : Type} (fetch : σ → FetchCall → FetchResult × σ) (drv : σ)
    (view : ODBCDatabaseView) (row : Int) (rgfStatus : Int) : LoadResult σ :=
  if view.forwardonly ≠ 0 then
    match forwardLoop fetch row (row - view.recno.data_integer).toNat
        { view := view, drv := drv, rgfStatus := rgfStatus, fetches := [] } with
    | .error st => { ret := 0, view := st.view, drv := st.drv, fetches := st.fetches }
    | .ok st => finishLoad st
  else
    let call : FetchCall := ⟨SQL_FETCH_ABSOLUTE, row⟩
    let r := fetch drv call
    let status := r.1.status.getD rgfStatus
    if r.1.ret = SQL_ERROR then
      { ret := 0
        view := { view with
                  db := (odbc_error view.db "SQLExtendedFetch: " r.1.diag SQL_HANDLE_STMT).2 }
        drv := r.2, fetches := [call] }
    else if r.1.ret = SQL_NO_DATA_FOUND then
      finishLoad
        { view := { view with eof := { view.eof with data_integer := 1 } }
          drv := r.2, rgfStatus := status, fetches := [call] }
    else
      finishLoad
        { view := { view with recno := { view.recno with data_integer := row } }
          drv := r.2, rgfStatus := status, fetches := [call] }

/-- The function `odbc_dbview_go` (`mvDatabaseView_SetDirty` acts on the host
object only). -/
def odbc_dbview_go {σ : Type} (fetch : σ → FetchCall → FetchResult × σ) (drv : σ)
    (view : ODBCDatabaseView) (row : Int) (rgfStatus : Int) : LoadResult σ :=
  odbc_load_row fetch drv view row rgfStatus

/-- The function `odbc_dbview_skip`. -/
def odbc_dbview_skip {σ : Type} (fetch : σ → FetchCall → FetchResult × σ) (drv : σ)
    (view : ODBCDatabaseView) (rows : Int) (rgfStatus : Int) : LoadResult σ :=
  odbc_load_row fetch drv view (toInt32 (view.recno.data_integer + rows)) rgfStatus

/-- The row numbers realised by a sequence of `odbc_dbview_go` calls, each
given as its target row and the value its uninitialised `rgfStatus` holds. -/
def goRows {σ : Type} (fetch : σ → FetchCall → FetchResult × σ) :
    σ → ODBCDatabaseView → List (Int × Int) → List Int
  | _, _, [] => []
  | drv, view, g :: rest =>
    let r := odbc_dbview_go fetch drv view g.1 g.2
    r.view.recno.data_integer :: goRows fetch r.drv r.view rest

/-! ## Column accessors -/

/-- The constants of `mivapi.h` the accessors use; the header is not part of
the sources, so the values are parameters. -/
structure Mivapi where
  MIVA_LENGTH_ASCIZ : Int
  MVD_TYPE_NONE : Int
  MVD_TYPE_STRING : Int
  MVD_TYPE_INTEGER : Int
  MVD_TYPE_DOUBLE : Int
  deriving DecidableEq, Repr

/-- The function `odbc_dbvar_getvalue_int`: the return value and the integer
stored through `value`, if any. -/
def odbc_dbvar_getvalue_int (var : ODBCDatabaseVariable) : Int × Option Int :=
  if var.type = ODBC_INTEGER then
    if var.cbData = SQL_NULL_DATA ∨ var.cbData = SQL_NO_DATA then (0, none)
    else (1, some var.data_integer)
  else (0, none)

/-- The function `odbc_dbvar_getvalue_double`: the return value and the double
stored through `value`, if any. -/
def odbc_dbvar_getvalue_double (var : ODBCDatabaseVariable) : Int × Option CDouble :=
  if var.type = ODBC_DOUBLE then
    if var.cbData = SQL_NULL_DATA ∨ var.cbData = SQL_NO_DATA then (0, none)
    else (1, some var.data_double)
  else (0, none)

/-- The answer of one `SQLGetData`: the return code, the bytes the driver
stores in the target buffer (terminator included), the length indicator it
reports and the diagnostics the statement holds afterwards. -/
structure GetDataResult where
  ret : Int
  data : List Nat
  ind : Int
  diag : Diag
  deriving DecidableEq, Repr

/-- One `SQLGetData` call: column, offset of the target inside the buffer,
`BufferLength`, and whether a length indicator is asked for. -/
structure GetDataCall where
  col : Int
  offset : Nat
  BufferLength : Int
  wantsInd : Bool
  deriving DecidableEq, Repr

/-- The function `mvProgram_Allocate`: a fresh block of `size` bytes.  Its
contents are unspecified in C and taken as zero bytes. -/
def mvProgram_Allocate (size : Int) : List Nat := List.replicate size.toNat 0

/-- Bytes `data` stored into `buf` from offset `off` on (`memcpy`, or the
driver filling a target buffer). -/
def store (buf : List Nat) (off : Nat) (data : List Nat) : List Nat :=
  buf.take off ++ data ++ buf.drop (off + data.length)

/-- The string literal `""` as memory: its terminator. -/
def emptyString : List Nat := [0]

/-- The three output parameters of `odbc_dbvar_getvalue_string`: the memory
`*value` points to (`none` for NULL), `*value_length` and `*value_del`. -/
structure StringOut where
  value : Option (List Nat)
  value_length : Int
  value_del : Int
  deriving DecidableEq, Repr

/-- The result of `odbc_dbvar_getvalue_string`: the return value, the outputs
(`none` when the function stores nothing), the session, the driver state and
the `SQLGetData` calls issued. -/
structure StringResult (σ : Type) where
  ret : Int
  out : Option StringOut
  db : ODBCDatabase
  drv : σ
  calls : List GetDataCall

/-- The outputs `*value = ""`, `*value_length = 0`, `*value_del = 0`. -/
def emptyOut : StringOut := { value := some emptyString, value_length := 0, value_del := 0 }

/-- The function `odbc_dbvar_getvalue_string`.  `getData` is the driver's
`SQLGetData` on the statement of the column. -/
def odbc_dbvar_getvalue_string {σ : Type} (api : Mivapi)
    (getData : σ → GetDataCall → GetDataResult × σ) (drv : σ) (db : ODBCDatabase)
    (var : ODBCDatabaseVariable) : StringResult σ :=
  if var.cbData = SQL_NULL_DATA then
    { ret := 1, out := some emptyOut, db := db, drv := drv, calls := [] }
  else if var.type = ODBC_STRING then
    { ret := 1
      out := some { value := var.data_string, value_length := var.cbData, value_del := 0 }
      db := db, drv := drv, calls := [] }
  else if var.type = ODBC_BLOB then
    let buffer_size : Int := 512
    let buffer0 := mvProgram_Allocate (buffer_size + 1 + 1)
    let call1 : GetDataCall := ⟨var.data_blob_col, 0, buffer_size + 1, true⟩
    let r1 := getData drv call1
    let buffer := store buffer0 0 r1.1.data
    let blob_len := r1.1.ind
    if r1.1.ret = SQL_ERROR then
      { ret := 1, out := some emptyOut
        db := (odbc_error db "SQLGetData: " r1.1.diag SQL_HANDLE_STMT).2
        drv := r1.2, calls := [call1] }
    else if r1.1.ret = SQL_NO_DATA ∨ blob_len = SQL_NULL_DATA ∨ blob_len = SQL_NO_TOTAL then
      { ret := 1, out := some emptyOut, db := db, drv := r1.2, calls := [call1] }
    else if r1.1.ret = SQL_SUCCESS then
      { ret := 1
        out := some { value := some buffer, value_length := blob_len, value_del := 1 }
        db := db, drv := r1.2, calls := [call1] }
    else if r1.1.ret = SQL_SUCCESS_WITH_INFO then
      if blob_len = SQL_NO_TOTAL then
        { ret := 1
          out := some { value := some buffer, value_length := api.MIVA_LENGTH_ASCIZ,
                        value_del := 1 }
          db := db, drv := r1.2, calls := [call1] }
      else
        let temp_buffer := store (mvProgram_Allocate (toInt32 (blob_len + 1 + 1))) 0
          (buffer.take buffer_size.toNat)
        let call2 : GetDataCall :=
          ⟨var.data_blob_col, buffer_size.toNat, toInt32 (blob_len - buffer_size + 1), false⟩
        let r2 := getData r1.2 call2
        if r2.1.ret ≠ SQL_SUCCESS then
          { ret := 1, out := some emptyOut, db := db, drv := r2.2, calls := [call1, call2] }
        else
          { ret := 1
            out := some { value := some (store temp_buffer buffer_size.toNat r2.1.data)
                          value_length := blob_len, value_del := 1 }
            db := db, drv := r2.2, calls := [call1, call2] }
    else
      { ret := 1, out := none, db := db, drv := r1.2, calls := [call1] }
  else
    { ret := 0, out := none, db := db, drv := drv, calls := [] }

/-- The function `odbc_dbvar_preferred_type`. -/
def odbc_dbvar_preferred_type (api : Mivapi) (var : ODBCDatabaseVariable) : Int :=
  if var.cbData = SQL_NULL_DATA ∨ var.cbData = SQL_NO_DATA then api.MVD_TYPE_STRING
  else
    match var.type with
    | ODBC_INTEGER => api.MVD_TYPE_INTEGER
    | ODBC_DOUBLE => api.MVD_TYPE_DOUBLE
    | ODBC_STRING => api.MVD_TYPE_STRING
    | ODBC_BLOB => api.MVD_TYPE_STRING

/-! ## Sample inputs -/

/-- A handle holding no diagnostics. -/
def noDiag : Diag := { recs := [], legacy := none }

/-- A session as `odbc_db_open` leaves it (`memset` to zero, then autocommit). -/
def sampleDb : ODBCDatabase :=
  { autocommit := 1, truncate := 0, forwardonly := 0, in_transaction := 0, error := "" }

/-- A session after the `truncate` command. -/
def truncatingDb : ODBCDatabase := { sampleDb with truncate := 1 }

/-- A host variable holding the given bytes. -/
def hostString (bytes : List Nat) : MvVariable :=
  { value := bytes, value_integer := 0, value_double := ⟨0⟩ }

/-- A driver that declares `count` parameters, describes each as
`VARCHAR(10)` and accepts every call. -/
def sampleDriver (count : Int) : Driver :=
  { numParamsRet := SQL_SUCCESS, numParams := count, numParamsDiag := noDiag
    describeParam := fun _ => ⟨SQL_SUCCESS, SQL_VARCHAR, 10, 0, 1⟩
    bindParameter := fun _ => SQL_SUCCESS, bindDiag := fun _ => noDiag
    executeRet := SQL_SUCCESS, executeDiag := noDiag, paramData := [] }

/-- The state in which a run of the forward-only loop ended, whichever way it
was left. -/
def loopEnd {σ : Type} : Except (LoopState σ) (LoopState σ) → LoopState σ
  | .ok st => st
  | .error st => st

/-- A driver cursor over a result set of `N` rows, its state the row it is
on: a fetch returns `SQL_SUCCESS` with row status 0 for the rows 1..N and
`SQL_NO_DATA_FOUND`, leaving the status word alone, elsewhere. -/
def resultSetDriver (N : Int) (pos : Int) (call : FetchCall) : FetchResult × Int :=
  let target := if call.fFetchType = SQL_FETCH_NEXT then pos + 1 else call.irow
  if 1 ≤ target ∧ target ≤ N then (⟨SQL_SUCCESS, some 0, noDiag⟩, target)
  else (⟨SQL_NO_DATA_FOUND, none, noDiag⟩, if N < target then N + 1 else 0)

/-- A view on row `row`, in forward-only mode when `forwardonly` is non-zero. -/
def sampleView (forwardonly row : Int) : ODBCDatabaseView :=
  { db := sampleDb, forwardonly := forwardonly
    recno := { ODBCDatabaseVariable.zero with data_integer := row }
    eof := ODBCDatabaseVariable.zero
    deleted := ODBCDatabaseVariable.zero }

/-- The large-object driver of the round-trip property, its state the bytes
not yet handed over: a get-data call with buffer capacity `n` stores the next
`min(remaining, n - 1)` bytes and a terminator, reports the length that was
still remaining in the indicator, and returns `SQL_SUCCESS_WITH_INFO` exactly
when bytes remain afterwards. -/
def chunkDriver (remaining : List Nat) (call : GetDataCall) : GetDataResult × List Nat :=
  let k := min remaining.length (call.BufferLength - 1).toNat
  (⟨if k < remaining.length then SQL_SUCCESS_WITH_INFO else SQL_SUCCESS,
    remaining.take k ++ [0], remaining.length, noDiag⟩, remaining.drop k)

/-- A large-object column variable as `odbc_bind_columns` sets it up. -/
def blobVar (col : Int) : ODBCDatabaseVariable :=
  { ODBCDatabaseVariable.zero with type := ODBC_BLOB, column := col, data_blob_col := col }

/-- Sample values for the constants of `mivapi.h`. -/
def sampleApi : Mivapi :=
  { MIVA_LENGTH_ASCIZ := -1, MVD_TYPE_NONE := 0, MVD_TYPE_STRING := 1, MVD_TYPE_INTEGER := 2,
    MVD_TYPE_DOUBLE := 3 }

/-- The text of a record as the diagnostic-truncation property writes it:
"state: text". -/
def renderRecord (r : DiagRec) : String := r.state ++ ": " ++ r.text

/-- The concatenation of "state: text" over a list of records. -/
def renderRecords : List DiagRec → String
  | [] => ""
  | r :: rs => renderRecord r ++ renderRecords rs

/-- The messages the diagnostic-truncation property allows: the prefix
followed by the rendering of the earliest `k` records, for each `k`. -/
def earliestRecordsMessages (pfx : String) (recs : List DiagRec) : List String :=
  (List.range (recs.length + 1)).map (fun k => pfx ++ renderRecords (recs.take k))

/-- The blocks of one record that were appended: its "state: " block when
`withState`, followed by its text when `withText`. -/
def recordBlocks (r : DiagRec) (withState withText : Bool) : String :=
  (if withState then r.state ++ ": " else "") ++ (if withText then r.text else "")

/-- The blocks of a list of records selected by a list of flag pairs. -/
def selectedBlocks : List DiagRec → List (Bool × Bool) → String
  | r :: rs, f :: fs => recordBlocks r f.1 f.2 ++ selectedBlocks rs fs
  | _, _ => ""

/-- A text of `n` characters. -/
def textOfLength (n : Nat) : String := String.mk (List.replicate n 'x')

/-- Two records: the text of the first is longer than the error buffer. -/
def oversizedThenShort : Diag :=
  { recs := [⟨"HY000", textOfLength 1100⟩, ⟨"01000", "ok"⟩], legacy := none }

/-- Two records: after the first only four characters of capacity remain. -/
def fillingRecords : Diag :=
  { recs := [⟨"HY000", textOfLength 1000⟩, ⟨"HY000", "x"⟩], legacy := none }

/-- A column variable of the given type whose length indicator is
`SQL_NULL_DATA`. -/
def nullVar (type : ODBCDatabaseVariableType) : ODBCDatabaseVariable :=
  { ODBCDatabaseVariable.zero with type := type, column := 1, cbData := SQL_NULL_DATA }

/-- A large-object driver that cannot tell the total length: every call stores
the first three bytes of its state and a terminator, reports `SQL_NO_TOTAL`
and returns `SQL_SUCCESS_WITH_INFO`. -/
def noTotalDriver (remaining : List Nat) (_call : GetDataCall) : GetDataResult × List Nat :=
  (⟨SQL_SUCCESS_WITH_INFO, remaining.take 3 ++ [0], SQL_NO_TOTAL, noDiag⟩, remaining.drop 3)

/-- The `SQLBindParameter` call of the character branch for a value bound in
full: C type `SQL_C_CHAR`, SQL type `SQL_CHAR`, the value's bytes as data and
its length both as buffer length and as bound length. -/
def fullLengthCharBind (param : Int) (var : MvVariable) : BindCall :=
  { ParameterNumber := param + 1, InputOutputType := SQL_PARAM_INPUT, ValueType := SQL_C_CHAR
    ParameterType := SQL_CHAR, ColumnSize := 0, DecimalDigits := 0
    ParameterValuePtr := .buffer var.value
    BufferLength := var.value.length, StrLen_or_Ind := var.value.length }

/-- A driver that declares `count` parameters, fails every
`SQLDescribeParam` and accepts every other call. -/
def undescribingDriver (count : Int) : Driver :=
  { sampleDriver count with describeParam := fun _ => ⟨SQL_ERROR, 0, 0, 0, 0⟩ }

/-- The rounds of the handshake in which the code supplies data: the leading
rounds of the driver's script whose `SQLParamData` returns `SQL_NEED_DATA`. -/
def needDataRounds (steps : List ParamDataStep) : List ParamDataStep :=
  steps.takeWhile (fun s => decide (s.ret = SQL_NEED_DATA))

/-- The two driver calls of one such round: `SQLParamData`, then `SQLPutData`
with the buffer and length stored for the token the driver returned. -/
def roundCalls (parameter_data : List ODBCParameter) (s : ParamDataStep) : List Call :=
  [.paramData,
   .putData (paramAt parameter_data (toInt32 s.token)).data_string
     (paramAt parameter_data (toInt32 s.token)).data_string_length]

/-- The last round of the handshake whose `SQLPutData` did not return
`SQL_SUCCESS`, if there is one. -/
def lastFailedPut (steps : List ParamDataStep) : Option ParamDataStep :=
  ((needDataRounds steps).filter (fun s => decide (s.putRet ≠ SQL_SUCCESS))).getLast?

/-- Diagnostics of one record with state HY000 and the given text. -/
def oneRecord (text : String) : Diag := { recs := [⟨"HY000", text⟩], legacy := none }

/-- A driver that declares one long-character parameter, asks for its data at
execution in three rounds, and fails the first two `SQLPutData` calls. -/
def failingPutDriver : Driver :=
  { sampleDriver 1 with
    describeParam := fun _ => ⟨SQL_SUCCESS, SQL_LONGVARCHAR, 0, 0, 1⟩
    executeRet := SQL_NEED_DATA
    paramData :=
      [⟨SQL_NEED_DATA, 0, noDiag, SQL_ERROR, oneRecord "first put failed"⟩,
       ⟨SQL_NEED_DATA, 0, noDiag, SQL_ERROR, oneRecord "second put failed"⟩,
       ⟨SQL_NEED_DATA, 0, noDiag, SQL_SUCCESS, noDiag⟩,
       ⟨SQL_SUCCESS, 0, noDiag, SQL_SUCCESS, noDiag⟩] }

/-- The `SQLBindParameter` call of the long character/binary branch: C type
`SQL_C_BINARY`, the zero-based position as the value pointer (the token), no
buffer length, and the indicator `SQL_LEN_DATA_AT_EXEC( 0 )`. -/
def deferredBind (param datatype : Int) : BindCall :=
  { ParameterNumber := param + 1, InputOutputType := SQL_PARAM_INPUT, ValueType := SQL_C_BINARY
    ParameterType := datatype, ColumnSize := 0, DecimalDigits := 0
    ParameterValuePtr := .token param
    BufferLength := 0, StrLen_or_Ind := SQL_LEN_DATA_AT_EXEC 0 }

/-- A driver that declares two parameters, the second of them long binary, and
asks for the data of the second at execution. -/
def longParamDriver : Driver :=
  { sampleDriver 2 with
    describeParam := fun n =>
      if n = 2 then ⟨SQL_SUCCESS, SQL_LONGVARBINARY, 0, 0, 1⟩
      else ⟨SQL_SUCCESS, SQL_VARCHAR, 10, 0, 1⟩
    executeRet := SQL_NEED_DATA
    paramData := [⟨SQL_NEED_DATA, 1, noDiag, SQL_SUCCESS, noDiag⟩,
                  ⟨SQL_SUCCESS, 0, noDiag, SQL_SUCCESS, noDiag⟩] }

/-! ## odbc_bind_columns -/

/-- The answer of `SQLDescribeCol`: return code, column name, SQL type,
precision (an unsigned 32-bit `UDWORD`), scale (a signed 16-bit `SWORD`),
nullability, and the diagnostics the statement holds afterwards. -/
structure ColDesc where
  ret : Int
  szColName : String
  fSqlType : Int
  ibPrecision : Int
  ibScale : Int
  fNullable : Int
  diag : Diag
  deriving DecidableEq, Repr

/-- The arguments of one `SQLBindCol` call: column number, C type and buffer
length. -/
structure BindColCall where
  icol : Int
  fCType : Int
  cbValueMax : Int
  deriving DecidableEq, Repr

/-- The driver as `odbc_bind_columns` sees it. -/
structure ColumnDriver where
  numResultColsRet : Int
  nCols : Int
  numResultColsDiag : Diag
  describeCol : Int → ColDesc
  bindCol : BindColCall → Int
  bindColDiag : BindColCall → Diag

/-- The `switch ( fSqlType )` of `odbc_bind_columns` (lines 479-534) for
column `i`: the column variable and the `SQLBindCol` call of the branch, if it
makes one.  `ibPrecision + ibScale + 1` is computed in the unsigned 32-bit
type of `ibPrecision` and stored into the signed 32-bit `data_string_size`. -/
def columnSlot (i fSqlType ibPrecision ibScale : Int) :
    ODBCDatabaseVariable × Option BindColCall :=
  let odbcvar := { ODBCDatabaseVariable.zero with column := i }
  if fSqlType = SQL_BIGINT ∨ fSqlType = SQL_TINYINT ∨ fSqlType = SQL_SMALLINT
      ∨ fSqlType = SQL_INTEGER ∨ fSqlType = SQL_BIT then
    ({ odbcvar with type := ODBC_INTEGER }, some ⟨i, SQL_C_SLONG, 4⟩)
  else if fSqlType = SQL_NUMERIC ∨ fSqlType = SQL_DECIMAL ∨ fSqlType = SQL_REAL
      ∨ fSqlType = SQL_FLOAT ∨ fSqlType = SQL_DOUBLE then
    ({ odbcvar with type := ODBC_DOUBLE }, some ⟨i, SQL_C_DOUBLE, 8⟩)
  else if fSqlType = SQL_LONGVARBINARY ∨ fSqlType = SQL_LONGVARCHAR then
    ({ odbcvar with type := ODBC_BLOB, data_blob_col := i }, none)
  else
    let data_string_size : Int :=
      if ibPrecision = 0 ∧ ibScale = 0 then 50
      else toInt32 (toUInt32 (toUInt32 (ibPrecision + toUInt32 ibScale) + 1))
    ({ odbcvar with
       type := ODBC_STRING
       data_string_size := data_string_size
       data_string := some (mvProgram_Allocate (toInt32 (data_string_size + 1))) },
     some ⟨i, SQL_C_CHAR, data_string_size⟩)

/-- The result of `odbc_bind_columns`: the return value, the session, and the
column variables added to the view with their names, in order. -/
structure BindColumnsResult where
  ret : Int
  db : ODBCDatabase
  added : List (String × ODBCDatabaseVariable)
  deriving DecidableEq, Repr

/-- The three synthetic column variables `odbc_bind_columns` adds first. -/
def specialVariables : List (String × ODBCDatabaseVariable) :=
  [("recno", { ODBCDatabaseVariable.zero with type := ODBC_INTEGER }),
   ("eof", { ODBCDatabaseVariable.zero with type := ODBC_INTEGER }),
   ("deleted", { ODBCDatabaseVariable.zero with type := ODBC_INTEGER })]

/-- The loop `for ( i = 1; i <= nCols; i++ )` of `odbc_bind_columns` from
column `i` on, with `count` columns still to go. -/
def bindColumnsFrom (db : ODBCDatabase) (drv : ColumnDriver) :
    Nat → Int → BindColumnsResult
  | 0, _ => { ret := 1, db := db, added := [] }
  | count + 1, i =>
    let d := drv.describeCol i
    if d.ret ≠ SQL_SUCCESS then
      { ret := 0, db := (odbc_error db "SQLDescribeCol: " d.diag SQL_HANDLE_STMT).2
        added := [] }
    else
      let slot := columnSlot i d.fSqlType d.ibPrecision d.ibScale
      match slot.2 with
      | some call =>
        if drv.bindCol call ≠ SQL_SUCCESS then
          { ret := 0
            db := (odbc_error db "SQLBindCol: " (drv.bindColDiag call) SQL_HANDLE_STMT).2
            added := [] }
        else
          let r := bindColumnsFrom db drv count (i + 1)
          { r with added := (d.szColName, slot.1) :: r.added }
      | none =>
        let r := bindColumnsFrom db drv count (i + 1)
        { r with added := (d.szColName, slot.1) :: r.added }

/-- The function `odbc_bind_columns`. -/
def odbc_bind_columns (db : ODBCDatabase) (drv : ColumnDriver) : BindColumnsResult :=
  if drv.numResultColsRet ≠ SQL_SUCCESS then
    { ret := 0
      db := (odbc_error db "SQLNumResultCols: " drv.numResultColsDiag SQL_HANDLE_STMT).2
      added := specialVariables }
  else
    let r := bindColumnsFrom db drv drv.nCols.toNat 1
    { r with added := specialVariables ++ r.added }

/-- A driver whose result set has one column with the given description, and
which accepts every `SQLBindCol`. -/
def oneColumnDriver (fSqlType ibPrecision ibScale : Int) : ColumnDriver :=
  { numResultColsRet := SQL_SUCCESS, nCols := 1, numResultColsDiag := noDiag
    describeCol := fun _ => ⟨SQL_SUCCESS, "c", fSqlType, ibPrecision, ibScale, 1, noDiag⟩
    bindCol := fun _ => SQL_SUCCESS, bindColDiag := fun _ => noDiag }

/-- A driver cursor over rows with the given row statuses, its state the row
it is on: a fetch of one of the rows returns `SQL_SUCCESS` and reports that
row's status; any other fetch returns `SQL_NO_DATA_FOUND` and leaves the
status word alone. -/
def rowStatusDriver (rows : List Int) (pos : Int) (call : FetchCall) : FetchResult × Int :=
  let target := if call.fFetchType = SQL_FETCH_NEXT then pos + 1 else call.irow
  if 1 ≤ target ∧ target ≤ rows.length then
    (⟨SQL_SUCCESS, some (rows.getD (target - 1).toNat 0), noDiag⟩, target)
  else (⟨SQL_NO_DATA_FOUND, none, noDiag⟩, if (rows.length : Int) < target then rows.length + 1 else 0)

/-- An integer column variable holding 7 whose length indicator is
`SQL_NO_DATA`. -/
def noDataIntVar : ODBCDatabaseVariable :=
  { ODBCDatabaseVariable.zero with
    type := ODBC_INTEGER, column := 1, data_integer := 7, cbData := SQL_NO_DATA }

/-- The capacity left after a record was handled with `r` characters of
capacity remaining, when every appended block is deducted: the "state: " block
is appended when more than its length remains, the text when the capacity
then left exceeds its length. -/
def capacityAfterRecord (r : Int) (d : DiagRec) : Int :=
  let r1 := if r > strlen d.state + 2 then r - (strlen d.state + 2) else r
  if r1 - strlen d.text > 0 then r1 - strlen d.text else r1

/-- The blocks that fit, in driver order, with `r` characters of capacity
remaining at the start: for each record its "state: " block when more than
its length remains, then its text when the capacity then left exceeds its
length; the records that follow are handled with the capacity that is left. -/
def blocksByCapacity : Int → List DiagRec → String
  | _, [] => ""
  | r, d :: ds =>
    recordBlocks d (decide (r > strlen d.state + 2))
        (decide ((if r > strlen d.state + 2 then r - (strlen d.state + 2) else r)
          - strlen d.text > 0))
      ++ blocksByCapacity (capacityAfterRecord r d) ds

/-- No state code arrives with fewer characters of capacity remaining than its
"state: " block is long (the case in which the `size_t` test of the state
block wraps). -/
def stateRoom : Int → List DiagRec → Bool
  | _, [] => true
  | r, d :: ds => decide (strlen d.state + 2 ≤ r) && stateRoom (capacityAfterRecord r d) ds

/-- The number of characters of "state: text" over a list of records. -/
def recordsSize : List DiagRec → Int
  | [] => 0
  | d :: ds => strlen d.state + 2 + strlen d.text + recordsSize ds

/-- Two records that fit the error buffer together. -/
def fittingRecords : Diag :=
  { recs := [⟨"42000", "syntax error"⟩, ⟨"01000", "ok"⟩], legacy := none }

/-- The column variables of `count` columns from column `i` on, each the slot
of the `switch` for what the driver describes, under the name the driver
gives. -/
def columnsOf (drv : ColumnDriver) : Nat → Int → List (String × ODBCDatabaseVariable)
  | 0, _ => []
  | count + 1, i =>
    ((drv.describeCol i).szColName,
      (columnSlot i (drv.describeCol i).fSqlType (drv.describeCol i).ibPrecision
        (drv.describeCol i).ibScale).1) :: columnsOf drv count (i + 1)

/-! ## Theorems -/

/-! ### Machine integers -/

theorem toInt32_of_range (x : Int) (h0 : -2147483648 ≤ x) (h1 : x < 2147483648) :
    toInt32 x = x := by
  unfold toInt32
  omega

/-! ### C1: parameter count mismatch -/

/-- C1: when `SQLNumParams` succeeds and the declared count differs from the
number of host inputs, `odbc_execute` returns 0, the only driver call issued
is `SQLNumParams` (no bind-parameter and no execute call), and the session's
error text is "Input parameter count mismatch: Found <supplied>, expected
<declared>" with the two counts in decimal. -/
theorem odbc_execute_count_mismatch (db : ODBCDatabase) (drv : Driver)
    (input : List MvVariable) (hnum : drv.numParamsRet = SQL_SUCCESS)
    (hne : drv.numParams ≠ (input.length : Int)) :
    (odbc_execute db drv input).ret = 0
    ∧ (odbc_execute db drv input).trace = [Call.numParams]
    ∧ (∀ c ∈ (odbc_execute db drv input).trace,
        c ≠ Call.execute ∧ ∀ b, c ≠ Call.bindParameter b)
    ∧ (odbc_execute db drv input).db.error
        = "Input parameter count mismatch: Found " ++ toString (input.length : Int)
            ++ ", expected " ++ toString drv.numParams := by
  have h : odbc_execute db drv input
      = { ret := 0
          db := { db with error := mismatchMessage input.length drv.numParams }
          trace := [Call.numParams] } := by
    simp only [odbc_execute]
    rw [if_neg (by simpa using hnum), if_pos hne]
  rw [h]
  refine ⟨rfl, rfl, ?_, rfl⟩
  intro c hc
  simp only [List.mem_singleton] at hc
  subst hc
  exact ⟨by simp, by simp⟩

/-- Witness for C1: three host inputs against a statement declaring two
parameters give "Input parameter count mismatch: Found 3, expected 2". -/
theorem odbc_execute_count_mismatch_witness :
    (sampleDriver 2).numParamsRet = SQL_SUCCESS
    ∧ (sampleDriver 2).numParams
        ≠ (([hostString [97], hostString [98], hostString [99]] : List MvVariable).length : Int)
    ∧ (odbc_execute sampleDb (sampleDriver 2)
        [hostString [97], hostString [98], hostString [99]]).ret = 0
    ∧ (odbc_execute sampleDb (sampleDriver 2)
        [hostString [97], hostString [98], hostString [99]]).db.error
        = "Input parameter count mismatch: Found 3, expected 2" :=
  have h := odbc_execute_count_mismatch sampleDb (sampleDriver 2)
    [hostString [97], hostString [98], hostString [99]] rfl (by decide)
  ⟨rfl, by decide, h.1, h.2.2.2.trans (by decide)⟩

/-! ### C2: truncation of character parameters -/

/-- The truncation law of the character branch holds for every declared
capacity below 2^31: the bound length is the capacity when the truncate flag
is on and the value is longer, and the full value length otherwise. -/
theorem bindSlot_truncation_in_range (db : ODBCDatabase) (param datatype c digits : Int)
    (var : MvVariable) (hchar : datatype = SQL_CHAR ∨ datatype = SQL_VARCHAR)
    (hc0 : 0 ≤ c) (hc1 : c < 2147483648) (hL : (var.value.length : Int) < 2147483648) :
    (bindSlot db param datatype c digits var).1.cbData
      = if db.truncate ≠ 0 ∧ (var.value.length : Int) > c then c else var.value.length := by
  have hne : c ≠ toUInt32 (-1) := by
    unfold toUInt32; omega
  have hcc : toInt32 c = c := toInt32_of_range c (by omega) hc1
  have hLL : toInt32 (var.value.length : Int) = var.value.length :=
    toInt32_of_range _ (by omega) hL
  rcases hchar with h | h <;> subst h <;>
    simp [bindSlot, SQL_CHAR, SQL_VARCHAR, SQL_LONGVARCHAR, SQL_LONGVARBINARY, SQL_BIGINT,
      SQL_TINYINT, SQL_SMALLINT, SQL_INTEGER, SQL_BIT, SQL_NUMERIC, SQL_DECIMAL, SQL_REAL,
      SQL_FLOAT, SQL_DOUBLE, hcc, hLL, hne]

/-- C2: with the truncate flag on, a 5-byte value bound to a `VARCHAR`
parameter whose declared capacity is 2147483648 (inside the unsigned 32-bit
range, not the sentinel) does not exceed the capacity, yet the bound length is
-2147483648 instead of the value length 5: `( int ) column_size` is negative,
so the comparison holds and the capacity is stored into the signed `cbData`. -/
theorem bindSlot_truncation_capacity_above_int_max :
    (5 : Int) ≤ 2147483648
    ∧ (2147483648 : Int) ≠ toUInt32 (-1)
    ∧ (bindSlot truncatingDb 0 SQL_VARCHAR 2147483648 0
        (hostString [104, 101, 108, 108, 111])).1.cbData = -2147483648
    ∧ (bindSlot truncatingDb 0 SQL_VARCHAR 2147483648 0
        (hostString [104, 101, 108, 108, 111])).2.BufferLength = -2147483648 := by
  decide

/-! ### C3: forward-only navigation -/

theorem forwardLoop_stop {σ : Type} (fetch : σ → FetchCall → FetchResult × σ) (row : Int)
    (fuel : Nat) (st : LoopState σ)
    (h : ¬ (st.view.eof.data_integer = 0 ∧ st.view.recno.data_integer < row)) :
    forwardLoop fetch row fuel st = .ok st := by
  cases fuel with
  | zero => rfl
  | succ n => simp only [forwardLoop, if_neg h]

theorem forwardLoop_mono {σ : Type} (fetch : σ → FetchCall → FetchResult × σ) (row : Int)
    (fuel : Nat) (st : LoopState σ) :
    st.view.recno.data_integer ≤ (loopEnd (forwardLoop fetch row fuel st)).view.recno.data_integer
    ∧ (loopEnd (forwardLoop fetch row fuel st)).view.forwardonly = st.view.forwardonly := by
  induction fuel generalizing st with
  | zero => exact ⟨le_refl _, rfl⟩
  | succ n ih =>
    simp only [forwardLoop]
    split_ifs with hc he hn
    · exact ⟨by simp [loopEnd], rfl⟩
    · refine ⟨le_trans ?_ (ih _).1, (ih _).2⟩
      simp
    · refine ⟨le_trans ?_ (ih _).1, (ih _).2⟩
      simp
    · exact ⟨le_refl _, rfl⟩

/-- The fuel `odbc_load_row` gives the forward-only loop is enough: when the
loop is left normally its condition is false, as in the C `while`. -/
theorem forwardLoop_exit {σ : Type} (fetch : σ → FetchCall → FetchResult × σ) (row : Int)
    (fuel : Nat) (st st1 : LoopState σ)
    (hfuel : (row - st.view.recno.data_integer).toNat ≤ fuel)
    (hok : forwardLoop fetch row fuel st = .ok st1) :
    ¬ (st1.view.eof.data_integer = 0 ∧ st1.view.recno.data_integer < row) := by
  induction fuel generalizing st with
  | zero =>
    simp only [forwardLoop, Except.ok.injEq] at hok
    subst hok
    intro h
    omega
  | succ n ih =>
    simp only [forwardLoop] at hok
    split_ifs at hok with hc he hn
    · exact ih _ (by simp; omega) hok
    · exact ih _ (by simp; omega) hok
    · simp only [Except.ok.injEq] at hok
      subst hok
      exact hc

theorem odbc_load_row_forward_mono {σ : Type} (fetch : σ → FetchCall → FetchResult × σ)
    (drv : σ) (view : ODBCDatabaseView) (row g : Int) (hfo : view.forwardonly ≠ 0) :
    view.recno.data_integer ≤ (odbc_load_row fetch drv view row g).view.recno.data_integer
    ∧ (odbc_load_row fetch drv view row g).view.forwardonly = view.forwardonly := by
  have h := forwardLoop_mono fetch row (row - view.recno.data_integer).toNat
    { view := view, drv := drv, rgfStatus := g, fetches := [] }
  simp only [odbc_load_row, if_pos hfo]
  cases hres : forwardLoop fetch row (row - view.recno.data_integer).toNat
    { view := view, drv := drv, rgfStatus := g, fetches := [] } with
  | error st => rw [hres] at h; exact h
  | ok st => rw [hres] at h; exact h

theorem goRows_chain {σ : Type} (fetch : σ → FetchCall → FetchResult × σ)
    (gos : List (Int × Int)) (drv : σ) (view : ODBCDatabaseView) (hfo : view.forwardonly ≠ 0) :
    List.Chain (· ≤ ·) view.recno.data_integer (goRows fetch drv view gos) := by
  induction gos generalizing drv view with
  | nil => exact List.Chain.nil
  | cons g rest ih =>
    have h := odbc_load_row_forward_mono fetch drv view g.1 g.2 hfo
    simp only [goRows, odbc_dbview_go]
    exact List.Chain.cons h.1 (ih _ _ (by rw [h.2]; exact hfo))

/-- C3: in forward-only mode, for every driver and every sequence of
`odbc_dbview_go` calls the row number after each call is at least the row
number before it (the realised row numbers, started from the current one, form
a non-decreasing chain); and a single call whose target is below the current
row issues no fetch, returns 1 and leaves the row number and the end-of-set
flag unchanged. -/
theorem forward_only_go_monotone {σ : Type} (fetch : σ → FetchCall → FetchResult × σ)
    (drv : σ) (view : ODBCDatabaseView) (hfo : view.forwardonly ≠ 0) :
    (∀ gos : List (Int × Int),
      List.Chain (· ≤ ·) view.recno.data_integer (goRows fetch drv view gos))
    ∧ (∀ row g : Int, row < view.recno.data_integer →
        (odbc_dbview_go fetch drv view row g).fetches = []
        ∧ (odbc_dbview_go fetch drv view row g).ret = 1
        ∧ (odbc_dbview_go fetch drv view row g).view.recno.data_integer
            = view.recno.data_integer
        ∧ (odbc_dbview_go fetch drv view row g).view.eof.data_integer
            = view.eof.data_integer) := by
  refine ⟨fun gos => goRows_chain fetch gos drv view hfo, ?_⟩
  intro row g hlt
  have hstop := forwardLoop_stop fetch row (row - view.recno.data_integer).toNat
    { view := view, drv := drv, rgfStatus := g, fetches := [] }
    (by simp only [not_and, not_lt]; intro _; exact le_of_lt hlt)
  simp [odbc_dbview_go, odbc_load_row, hfo, hstop, finishLoad]

/-- Witness for C3: a forward-only view on row 2 of a three-row result set,
with the calls go(3), go(1), go(5) and the single call go(1). -/
theorem forward_only_go_monotone_witness :
    (sampleView 1 2).forwardonly ≠ 0
    ∧ List.Chain (· ≤ ·) (sampleView 1 2).recno.data_integer
        (goRows (resultSetDriver 3) 2 (sampleView 1 2) [(3, 0), (1, 0), (5, 0)])
    ∧ (odbc_dbview_go (resultSetDriver 3) 2 (sampleView 1 2) 1 0).fetches = []
    ∧ (odbc_dbview_go (resultSetDriver 3) 2 (sampleView 1 2) 1 0).view.recno.data_integer = 2 :=
  have h := forward_only_go_monotone (resultSetDriver 3) 2 (sampleView 1 2) (by decide)
  ⟨by decide, h.1 _, (h.2 1 0 (by decide)).1, (h.2 1 0 (by decide)).2.2.1⟩

/-! ### C4: scrollable navigation -/

/-- C4: in scrollable mode `odbc_dbview_go` issues one absolute fetch for the
requested row; when that fetch returns anything but `SQL_ERROR` and
`SQL_NO_DATA_FOUND` (it returned data) the call returns 1 with the row-number
column equal to the requested row; when it returns `SQL_NO_DATA_FOUND` the
call returns 1 with the end-of-set flag 1 and the row number as it was before
the call. -/
theorem scrollable_go {σ : Type} (fetch : σ → FetchCall → FetchResult × σ)
    (drv : σ) (view : ODBCDatabaseView) (row g : Int) (hsc : view.forwardonly = 0) :
    (odbc_dbview_go fetch drv view row g).fetches = [⟨SQL_FETCH_ABSOLUTE, row⟩]
    ∧ ((fetch drv ⟨SQL_FETCH_ABSOLUTE, row⟩).1.ret ≠ SQL_ERROR →
        (fetch drv ⟨SQL_FETCH_ABSOLUTE, row⟩).1.ret ≠ SQL_NO_DATA_FOUND →
        (odbc_dbview_go fetch drv view row g).ret = 1
        ∧ (odbc_dbview_go fetch drv view row g).view.recno.data_integer = row)
    ∧ ((fetch drv ⟨SQL_FETCH_ABSOLUTE, row⟩).1.ret = SQL_NO_DATA_FOUND →
        (odbc_dbview_go fetch drv view row g).ret = 1
        ∧ (odbc_dbview_go fetch drv view row g).view.eof.data_integer = 1
        ∧ (odbc_dbview_go fetch drv view row g).view.recno.data_integer
            = view.recno.data_integer) := by
  have hfo : ¬ view.forwardonly ≠ 0 := by simp [hsc]
  refine ⟨?_, ?_, ?_⟩
  · simp only [odbc_dbview_go, odbc_load_row, if_neg hfo]
    split_ifs <;> rfl
  · intro he hn
    simp [odbc_dbview_go, odbc_load_row, hsc, he, hn, finishLoad]
  · intro hn
    have hne : SQL_NO_DATA_FOUND ≠ SQL_ERROR := by decide
    simp [odbc_dbview_go, odbc_load_row, hsc, hn, hne, finishLoad]

/-- Witness for C4: a scrollable view on row 2 of a three-row result set;
go(3) lands on row 3 and go(7) sets end-of-set with the row number still 2. -/
theorem scrollable_go_witness :
    (sampleView 0 2).forwardonly = 0
    ∧ (odbc_dbview_go (resultSetDriver 3) 2 (sampleView 0 2) 3 0).view.recno.data_integer = 3
    ∧ (odbc_dbview_go (resultSetDriver 3) 2 (sampleView 0 2) 7 0).view.eof.data_integer = 1
    ∧ (odbc_dbview_go (resultSetDriver 3) 2 (sampleView 0 2) 7 0).view.recno.data_integer = 2 :=
  ⟨rfl,
   ((scrollable_go (resultSetDriver 3) 2 (sampleView 0 2) 3 0 rfl).2.1
      (by decide) (by decide)).2,
   ((scrollable_go (resultSetDriver 3) 2 (sampleView 0 2) 7 0 rfl).2.2 (by decide)).2.1,
   ((scrollable_go (resultSetDriver 3) 2 (sampleView 0 2) 7 0 rfl).2.2 (by decide)).2.2⟩

/-! ### C5: large-object round trip -/

theorem chunkDriver_small (stored : List Nat) (col : Int) (h : stored.length ≤ 512) :
    chunkDriver stored ⟨col, 0, 512 + 1, true⟩
      = (⟨SQL_SUCCESS, stored ++ [0], stored.length, noDiag⟩, []) := by
  have hk : min stored.length ((512 + 1 - 1 : Int)).toNat = stored.length := by
    have : ((512 + 1 - 1 : Int)).toNat = 512 := by decide
    rw [this]; exact min_eq_left h
  simp only [chunkDriver, hk, lt_irrefl, if_false, List.take_length, List.drop_length]

theorem chunkDriver_first (stored : List Nat) (col : Int) (h : 512 < stored.length) :
    chunkDriver stored ⟨col, 0, 512 + 1, true⟩
      = (⟨SQL_SUCCESS_WITH_INFO, stored.take 512 ++ [0], stored.length, noDiag⟩,
          stored.drop 512) := by
  have hk : min stored.length ((512 + 1 - 1 : Int)).toNat = 512 := by
    have : ((512 + 1 - 1 : Int)).toNat = 512 := by decide
    rw [this]; exact min_eq_right (le_of_lt h)
  simp only [chunkDriver, hk, h, if_true]

theorem chunkDriver_rest (stored : List Nat) (col : Int) (off : Nat) (h : 512 < stored.length) :
    chunkDriver (stored.drop 512) ⟨col, off, (stored.length : Int) - 512 + 1, false⟩
      = (⟨SQL_SUCCESS, stored.drop 512 ++ [0], (stored.length : Int) - 512, noDiag⟩, []) := by
  have hl : (stored.drop 512).length = stored.length - 512 := List.length_drop _ _
  have hk : min (stored.drop 512).length (((stored.length : Int) - 512 + 1 - 1)).toNat
      = (stored.drop 512).length := by
    rw [hl]
    have : (((stored.length : Int) - 512 + 1 - 1)).toNat = stored.length - 512 := by omega
    rw [this]; exact min_self _
  simp only [chunkDriver, hk, lt_irrefl, if_false, List.take_length, List.drop_length]
  rw [hl]
  congr 2
  omega

theorem store_zero_take (buf a b : List Nat) (n : Nat) (hn : n = a.length) :
    (store buf 0 (a ++ b)).take n = a := by
  subst hn
  simp [store]

theorem store_take_append (a b c d : List Nat) (off n : Nat) (ho : off = a.length)
    (hn : n = a.length + b.length) :
    (store (a ++ c) off (b ++ d)).take n = a ++ b := by
  subst hn ho
  simp [store, List.take_append_eq_append_take]


/-- C5: against the chunking driver, `odbc_dbvar_getvalue_string` on a
large-object column returns 1 and hands back an owned buffer (`value_del` 1)
with `value_length` equal to the stored length `L` whose first `L` bytes are
the stored value, for every stored value whose length plus the two slack bytes
fits a 32-bit `int`; it issues one `SQLGetData` call when `L <= 512` and two
(probe and one continuation) when `L > 512`, after which the driver has handed
over every byte. -/
theorem blob_round_trip (api : Mivapi) (db : ODBCDatabase) (var : ODBCDatabaseVariable)
    (stored : List Nat) (hblob : var.type = ODBC_BLOB) (hnn : var.cbData ≠ SQL_NULL_DATA)
    (hlen : (stored.length : Int) + 2 < 2147483648) :
    (odbc_dbvar_getvalue_string api chunkDriver stored db var).ret = 1
    ∧ (∃ buf, (odbc_dbvar_getvalue_string api chunkDriver stored db var).out
          = some ⟨some buf, stored.length, 1⟩
        ∧ buf.take stored.length = stored)
    ∧ (odbc_dbvar_getvalue_string api chunkDriver stored db var).calls.length
        = (if stored.length ≤ 512 then 1 else 2)
    ∧ (odbc_dbvar_getvalue_string api chunkDriver stored db var).drv = [] := by
  have hns : var.type ≠ ODBC_STRING := by rw [hblob]; decide
  have hL0 : (0 : Int) ≤ stored.length := Int.natCast_nonneg _
  have hind1 : (stored.length : Int) ≠ SQL_NULL_DATA := by unfold SQL_NULL_DATA; omega
  have hind2 : (stored.length : Int) ≠ SQL_NO_TOTAL := by unfold SQL_NO_TOTAL; omega
  by_cases h : stored.length ≤ 512
  · have hd := chunkDriver_small stored var.data_blob_col h
    have hval : odbc_dbvar_getvalue_string api chunkDriver stored db var
        = { ret := 1
            out := some { value := some (store (mvProgram_Allocate (512 + 1 + 1)) 0
                            (stored ++ [0]))
                          value_length := stored.length, value_del := 1 }
            db := db, drv := [], calls := [⟨var.data_blob_col, 0, 512 + 1, true⟩] } := by
      have e1 : SQL_SUCCESS ≠ SQL_ERROR := by decide
      have e2 : SQL_SUCCESS ≠ SQL_NO_DATA := by decide
      simp only [odbc_dbvar_getvalue_string, if_neg hnn, if_neg hns, if_pos hblob, hd,
        if_neg e1, e2, hind1, hind2, or_self, if_false, if_true]
    rw [hval]
    refine ⟨rfl, ⟨_, rfl, store_zero_take _ _ _ _ rfl⟩, ?_, rfl⟩
    simp [h]
  · have h1 : 512 < stored.length := Nat.lt_of_not_le h
    have hd1 := chunkDriver_first stored var.data_blob_col h1
    have hd2 := chunkDriver_rest stored var.data_blob_col 512 h1
    have hcap : toInt32 ((stored.length : Int) - 512 + 1) = (stored.length : Int) - 512 + 1 :=
      toInt32_of_range _ (by omega) (by omega)
    have hval : odbc_dbvar_getvalue_string api chunkDriver stored db var
        = { ret := 1
            out := some
              { value := some (store
                  (store (mvProgram_Allocate (toInt32 ((stored.length : Int) + 1 + 1))) 0
                    ((store (mvProgram_Allocate (512 + 1 + 1)) 0
                      (stored.take 512 ++ [0])).take 512))
                  512 (stored.drop 512 ++ [0]))
                value_length := stored.length, value_del := 1 }
            db := db, drv := []
            calls := [⟨var.data_blob_col, 0, 512 + 1, true⟩,
                      ⟨var.data_blob_col, 512, (stored.length : Int) - 512 + 1, false⟩] } := by
      have e1 : SQL_SUCCESS_WITH_INFO ≠ SQL_ERROR := by decide
      have e2 : SQL_SUCCESS_WITH_INFO ≠ SQL_NO_DATA := by decide
      have e3 : SQL_SUCCESS_WITH_INFO ≠ SQL_SUCCESS := by decide
      have h512 : (512 : Int).toNat = 512 := by decide
      simp only [odbc_dbvar_getvalue_string, if_neg hnn, if_neg hns, if_pos hblob, hd1,
        if_neg e1, e2, if_neg e3, hind1, hind2, or_self, if_false, if_true, h512, hcap, hd2,
        ne_eq, not_true_eq_false]
    rw [hval]
    refine ⟨rfl, ⟨_, rfl, ?_⟩, ?_, rfl⟩
    · have hpre : (store (mvProgram_Allocate (512 + 1 + 1)) 0 (stored.take 512 ++ [0])).take 512
          = stored.take 512 :=
        store_zero_take _ _ _ _ (by simp [List.length_take]; omega)
      rw [hpre]
      have htemp : store (mvProgram_Allocate (toInt32 ((stored.length : Int) + 1 + 1))) 0
            (stored.take 512)
          = stored.take 512 ++ (mvProgram_Allocate (toInt32 ((stored.length : Int) + 1 + 1))).drop
              (0 + (stored.take 512).length) := by
        simp [store]
      rw [htemp, store_take_append (stored.take 512) (stored.drop 512) _ [0] 512 stored.length
        (by simp [List.length_take]; omega) (by simp [List.length_take, List.length_drop]; omega)]
      exact List.take_append_drop 512 stored
    · simp [h]

/-- Witness for C5: a 10-byte value and a 5000-byte value. -/
theorem blob_round_trip_witness :
    (blobVar 1).type = ODBC_BLOB ∧ (blobVar 1).cbData ≠ SQL_NULL_DATA
    ∧ (([72, 101, 108, 108, 111, 32, 98, 108, 111, 98] : List Nat).length : Int) + 2 < 2147483648
    ∧ (odbc_dbvar_getvalue_string sampleApi chunkDriver
        [72, 101, 108, 108, 111, 32, 98, 108, 111, 98] sampleDb (blobVar 1)).calls.length = 1
    ∧ (∃ buf, (odbc_dbvar_getvalue_string sampleApi chunkDriver
          [72, 101, 108, 108, 111, 32, 98, 108, 111, 98] sampleDb (blobVar 1)).out
          = some ⟨some buf, 10, 1⟩
        ∧ buf.take 10 = [72, 101, 108, 108, 111, 32, 98, 108, 111, 98])
    ∧ (∃ buf, (odbc_dbvar_getvalue_string sampleApi chunkDriver
          (List.replicate 5000 65) sampleDb (blobVar 1)).out
          = some ⟨some buf, ((List.replicate 5000 65).length : Int), 1⟩
        ∧ buf.take (List.replicate 5000 65).length = List.replicate 5000 65) :=
  have h := blob_round_trip sampleApi sampleDb (blobVar 1)
    [72, 101, 108, 108, 111, 32, 98, 108, 111, 98] rfl (by decide) (by decide)
  have h2 := blob_round_trip sampleApi sampleDb (blobVar 1) (List.replicate 5000 65) rfl
    (by decide) (by simp only [List.length_replicate]; decide)
  ⟨rfl, by decide, by decide, h.2.2.1.trans (by decide), h.2.1, h2.2.1⟩

/-! ### C6 and C7: the diagnostic message -/

theorem appendRecord_blocks (acc : String × Int) (r : DiagRec) :
    ∃ f : Bool × Bool, (appendRecord acc r).1 = acc.1 ++ recordBlocks r f.1 f.2 := by
  unfold appendRecord
  by_cases h1 : toSizeT (acc.2 - (strlen r.state + 2)) > 0
  · by_cases h2 : toInt32 (toSizeT (acc.2 - (strlen r.state + 2))) - r.text_length > 0
    · refine ⟨(true, true), ?_⟩
      simp [h1, h2, recordBlocks, String.append_assoc]
    · refine ⟨(true, false), ?_⟩
      simp [h1, h2, recordBlocks, String.append_assoc]
  · by_cases h2 : acc.2 - r.text_length > 0
    · refine ⟨(false, true), ?_⟩
      simp [h1, h2, recordBlocks]
    · refine ⟨(false, false), ?_⟩
      simp [h1, h2, recordBlocks]

theorem foldl_appendRecord_blocks (recs : List DiagRec) (acc : String × Int) :
    ∃ flags : List (Bool × Bool), flags.length = recs.length
      ∧ (recs.foldl appendRecord acc).1 = acc.1 ++ selectedBlocks recs flags := by
  induction recs generalizing acc with
  | nil => exact ⟨[], rfl, by simp [selectedBlocks]⟩
  | cons r rs ih =>
    obtain ⟨f, hf⟩ := appendRecord_blocks acc r
    obtain ⟨fs, hlen, hfs⟩ := ih (appendRecord acc r)
    refine ⟨f :: fs, by simp [hlen], ?_⟩
    rw [List.foldl_cons, hfs, hf, selectedBlocks, String.append_assoc]

/-- The message of `odbc_error` over a non-empty sequence of records is the
prefix followed, in driver order, by whole blocks of the records: each record
contributes its "state: " block or not, and then its text or not, nothing else
and nothing cut part-way. -/
theorem odbc_error_whole_blocks (pfx : String) (r : DiagRec) (rs : List DiagRec)
    (legacy : Option DiagRec) (handle_type : Int) :
    ∃ flags : List (Bool × Bool), flags.length = (r :: rs).length
      ∧ odbc_error_message pfx ⟨r :: rs, legacy⟩ handle_type
          = pfx ++ selectedBlocks (r :: rs) flags := by
  simp only [odbc_error_message]
  exact foldl_appendRecord_blocks (r :: rs) _

set_option maxRecDepth 100000 in
/-- C6, counterexample: with the prefix "SQLExecute: " and the records
("HY000", a text of 1100 characters), ("01000", "ok") the message is
"SQLExecute: HY000: 01000: ok": the first record appears with its state but
without its text, the second record follows it, and the message is not the
prefix followed by "state: text" of the earliest k records for any k. -/
theorem odbc_error_not_earliest_records :
    odbc_error_message "SQLExecute: " oversizedThenShort SQL_HANDLE_STMT
        = "SQLExecute: HY000: 01000: ok"
    ∧ odbc_error_message "SQLExecute: " oversizedThenShort SQL_HANDLE_STMT
        ∉ earliestRecordsMessages "SQLExecute: " oversizedThenShort.recs := by
  decide

set_option maxRecDepth 100000 in
/-- C7: with the prefix "SQLExecute: " (shorter than the buffer) and the
records ("HY000", a text of 1000 characters), ("HY000", "x") the message is
1026 characters long, more than the 1023 the buffer holds before its
terminator: when the second state code arrives four characters remain, and
`remaining - ( strlen( state ) + 2 )`, evaluated in `size_t`, wraps to a large
positive number, so the seven characters are appended all the same. -/
theorem odbc_error_overruns_buffer :
    strlen "SQLExecute: " < ERROR_SIZE
    ∧ (∀ r ∈ fillingRecords.recs, strlen r.state ≤ 5)
    ∧ strlen (odbc_error_message "SQLExecute: " fillingRecords SQL_HANDLE_STMT) = 1026 := by
  decide

/-! ### C8: null columns -/

/-- C8: for every column variable whose length indicator is `SQL_NULL_DATA`,
whatever its type, `odbc_dbvar_getvalue_string` returns 1 with the empty
string, length 0 and ownership flag 0 without calling the driver, and
`odbc_dbvar_getvalue_int` and `odbc_dbvar_getvalue_double` both return 0
and store no value. -/
theorem null_column_accessors {σ : Type} (api : Mivapi)
    (getData : σ → GetDataCall → GetDataResult × σ) (drv : σ) (db : ODBCDatabase)
    (var : ODBCDatabaseVariable) (hnull : var.cbData = SQL_NULL_DATA) :
    (odbc_dbvar_getvalue_string api getData drv db var).ret = 1
    ∧ (odbc_dbvar_getvalue_string api getData drv db var).out
        = some { value := some emptyString, value_length := 0, value_del := 0 }
    ∧ (odbc_dbvar_getvalue_string api getData drv db var).calls = []
    ∧ odbc_dbvar_getvalue_int var = (0, none)
    ∧ odbc_dbvar_getvalue_double var = (0, none) := by
  refine ⟨?_, ?_, ?_, ?_, ?_⟩
  · simp only [odbc_dbvar_getvalue_string, if_pos hnull]
  · simp only [odbc_dbvar_getvalue_string, if_pos hnull, emptyOut]
  · simp only [odbc_dbvar_getvalue_string, if_pos hnull]
  · unfold odbc_dbvar_getvalue_int
    split_ifs with h1 h2
    · rfl
    · exact absurd (Or.inl hnull) h2
    · rfl
  · unfold odbc_dbvar_getvalue_double
    split_ifs with h1 h2
    · rfl
    · exact absurd (Or.inl hnull) h2
    · rfl

/-- Witness for C8: null columns of integer and of large-object type. -/
theorem null_column_accessors_witness :
    (nullVar ODBC_INTEGER).cbData = SQL_NULL_DATA
    ∧ odbc_dbvar_getvalue_int (nullVar ODBC_INTEGER) = (0, none)
    ∧ (nullVar ODBC_BLOB).cbData = SQL_NULL_DATA
    ∧ (odbc_dbvar_getvalue_string sampleApi chunkDriver [1, 2, 3] sampleDb
        (nullVar ODBC_BLOB)).out
        = some { value := some emptyString, value_length := 0, value_del := 0 } :=
  ⟨rfl,
   (null_column_accessors sampleApi chunkDriver [] sampleDb (nullVar ODBC_INTEGER) rfl).2.2.2.1,
   rfl,
   (null_column_accessors sampleApi chunkDriver [1, 2, 3] sampleDb (nullVar ODBC_BLOB) rfl).2.1⟩

/-! ### C10: large object of unknown length -/

/-- Whenever the first probe reports `SQL_NO_TOTAL`, without an error, the
result is the empty string with length 0 and ownership flag 0, after that
single call: the test of line 1033 comes before the branch of line 1051. -/
theorem getvalue_string_no_total {σ : Type} (api : Mivapi)
    (getData : σ → GetDataCall → GetDataResult × σ) (drv : σ) (db : ODBCDatabase)
    (var : ODBCDatabaseVariable) (hblob : var.type = ODBC_BLOB)
    (hnn : var.cbData ≠ SQL_NULL_DATA)
    (hret : (getData drv ⟨var.data_blob_col, 0, 513, true⟩).1.ret ≠ SQL_ERROR)
    (hind : (getData drv ⟨var.data_blob_col, 0, 513, true⟩).1.ind = SQL_NO_TOTAL) :
    (odbc_dbvar_getvalue_string api getData drv db var).out = some emptyOut
    ∧ (odbc_dbvar_getvalue_string api getData drv db var).calls
        = [⟨var.data_blob_col, 0, 513, true⟩] := by
  have hns : var.type ≠ ODBC_STRING := by rw [hblob]; decide
  have h513 : (512 : Int) + 1 = 513 := by decide
  simp only [odbc_dbvar_getvalue_string, if_neg hnn, if_neg hns, if_pos hblob, h513,
    if_neg hret, hind, or_true, if_true, and_self]

/-- C10: on a large-object column whose first probe returns
`SQL_SUCCESS_WITH_INFO` with the indicator `SQL_NO_TOTAL` and the partial data
1, 2, 3, `odbc_dbvar_getvalue_string` issues that one `SQLGetData` call and
returns 1 with the empty string, length 0 and ownership flag 0; it does not
return the probe buffer with length `MIVA_LENGTH_ASCIZ` and ownership flag 1. -/
theorem getvalue_string_no_total_returns_empty :
    (noTotalDriver [1, 2, 3, 4, 5] ⟨1, 0, 513, true⟩).1.ret = SQL_SUCCESS_WITH_INFO
    ∧ (noTotalDriver [1, 2, 3, 4, 5] ⟨1, 0, 513, true⟩).1.ind = SQL_NO_TOTAL
    ∧ (odbc_dbvar_getvalue_string sampleApi noTotalDriver [1, 2, 3, 4, 5] sampleDb
        (blobVar 1)).ret = 1
    ∧ (odbc_dbvar_getvalue_string sampleApi noTotalDriver [1, 2, 3, 4, 5] sampleDb
        (blobVar 1)).out
        = some { value := some emptyString, value_length := 0, value_del := 0 }
    ∧ (odbc_dbvar_getvalue_string sampleApi noTotalDriver [1, 2, 3, 4, 5] sampleDb
        (blobVar 1)).calls = [⟨1, 0, 513, true⟩]
    ∧ (∀ buf, (odbc_dbvar_getvalue_string sampleApi noTotalDriver [1, 2, 3, 4, 5] sampleDb
        (blobVar 1)).out
        ≠ some { value := some buf, value_length := sampleApi.MIVA_LENGTH_ASCIZ,
                 value_del := 1 }) := by
  refine ⟨rfl, rfl, by decide, by decide, by decide, ?_⟩
  intro buf h
  have h2 : (odbc_dbvar_getvalue_string sampleApi noTotalDriver [1, 2, 3, 4, 5] sampleDb
      (blobVar 1)).out = some emptyOut := by decide
  rw [h2] at h
  simp [emptyOut, sampleApi] at h

/-! ### C9: the binding phase -/

theorem bindSlot_parameterNumber (db : ODBCDatabase) (param datatype column_size digits : Int)
    (var : MvVariable) :
    (bindSlot db param datatype column_size digits var).2.ParameterNumber = param + 1 := by
  unfold bindSlot
  split_ifs <;> rfl

/-- After a failed `SQLDescribeParam` the slot is the character bind with the
full value length, whatever the truncate flag. -/
theorem bindSlot_describe_failed (db : ODBCDatabase) (param : Int) (d : ParamDesc)
    (var : MvVariable) (hfail : d.ret ≠ SQL_SUCCESS)
    (hlen : (var.value.length : Int) < 2147483648) :
    (bindSlot db param (describeOrDefault d).1 (describeOrDefault d).2.1
        (describeOrDefault d).2.2 var).2 = fullLengthCharBind param var
    ∧ (bindSlot db param (describeOrDefault d).1 (describeOrDefault d).2.1
        (describeOrDefault d).2.2 var).1.cbData = var.value.length := by
  have hL : toInt32 (var.value.length : Int) = var.value.length :=
    toInt32_of_range _ (by omega) hlen
  simp [describeOrDefault, hfail, bindSlot, fullLengthCharBind, hL, SQL_CHAR, SQL_LONGVARCHAR,
    SQL_LONGVARBINARY, SQL_BIGINT, SQL_TINYINT, SQL_SMALLINT, SQL_INTEGER, SQL_BIT, SQL_NUMERIC,
    SQL_DECIMAL, SQL_REAL, SQL_FLOAT, SQL_DOUBLE]

theorem bindParams_failure (db : ODBCDatabase) (drv : Driver) (input : List MvVariable)
    (param : Int) (hfail : (bindParams db drv param input).ok = false) :
    ∃ c, Call.bindParameter c ∈ (bindParams db drv param input).trace
      ∧ drv.bindParameter c = SQL_ERROR := by
  induction input generalizing param with
  | nil => simp [bindParams] at hfail
  | cons var rest ih =>
    simp only [bindParams] at hfail ⊢
    split_ifs at hfail ⊢ with herr
    · exact ⟨_, by simp, herr⟩
    · obtain ⟨c, hc, hce⟩ := ih (param + 1) hfail
      exact ⟨c, by simp [hc], hce⟩

theorem bindParams_success (db : ODBCDatabase) (drv : Driver) (input : List MvVariable)
    (param : Int) (hall : ∀ c, drv.bindParameter c ≠ SQL_ERROR) :
    (bindParams db drv param input).ok = true := by
  induction input generalizing param with
  | nil => rfl
  | cons var rest ih =>
    simp only [bindParams, if_neg (hall _)]
    exact ih (param + 1)

/-- Every bind call of the loop is the slot of the input at its position. -/
theorem bindParams_trace_mem (db : ODBCDatabase) (drv : Driver) (input : List MvVariable)
    (param : Int) (c : BindCall)
    (hc : Call.bindParameter c ∈ (bindParams db drv param input).trace) :
    ∃ (i : Nat) (var : MvVariable), input[i]? = some var
      ∧ c = (bindSlot db (param + i)
          (describeOrDefault (drv.describeParam (param + i + 1))).1
          (describeOrDefault (drv.describeParam (param + i + 1))).2.1
          (describeOrDefault (drv.describeParam (param + i + 1))).2.2 var).2 := by
  induction input generalizing param with
  | nil => simp [bindParams] at hc
  | cons var rest ih =>
    simp only [bindParams] at hc
    split_ifs at hc with herr
    · simp only [List.mem_cons, Call.bindParameter.injEq, List.mem_singleton, reduceCtorEq,
        false_or, or_self, List.not_mem_nil, or_false] at hc
      exact ⟨0, var, by simp, by simpa using hc⟩
    · simp only [List.mem_cons, Call.bindParameter.injEq, reduceCtorEq, false_or] at hc
      rcases hc with hc | hc
      · exact ⟨0, var, by simp, by simpa using hc⟩
      · obtain ⟨i, v, hv, hcv⟩ := ih (param + 1) hc
        refine ⟨i + 1, v, by simpa using hv, ?_⟩
        have e : param + ((i + 1 : Nat) : Int) = param + 1 + i := by push_cast; ring
        rw [e]
        exact hcv

/-- When the loop runs to its end every input has had its bind call. -/
theorem bindParams_all_bound (db : ODBCDatabase) (drv : Driver) (input : List MvVariable)
    (param : Int) (hok : (bindParams db drv param input).ok = true) (i : Nat)
    (var : MvVariable) (hi : input[i]? = some var) :
    Call.bindParameter (bindSlot db (param + i)
        (describeOrDefault (drv.describeParam (param + i + 1))).1
        (describeOrDefault (drv.describeParam (param + i + 1))).2.1
        (describeOrDefault (drv.describeParam (param + i + 1))).2.2 var).2
      ∈ (bindParams db drv param input).trace := by
  induction input generalizing param i with
  | nil => simp at hi
  | cons v rest ih =>
    simp only [bindParams] at hok ⊢
    split_ifs at hok ⊢ with herr
    cases i with
    | zero =>
      simp only [List.getElem?_cons_zero, Option.some.injEq] at hi
      subst hi
      simp
    | succ j =>
      simp only [List.getElem?_cons_succ] at hi
      have h := ih (param + 1) hok j hi
      have e : param + ((j + 1 : Nat) : Int) = param + 1 + j := by push_cast; ring
      rw [e]
      simp [h]

theorem bindParams_no_execute (db : ODBCDatabase) (drv : Driver) (input : List MvVariable)
    (param : Int) : Call.execute ∉ (bindParams db drv param input).trace := by
  induction input generalizing param with
  | nil => simp [bindParams]
  | cons var rest ih =>
    simp only [bindParams]
    split_ifs with herr
    · simp
    · simp [ih (param + 1)]

theorem handshake_trace (db : ODBCDatabase) (parameter_data : List ODBCParameter)
    (steps : List ParamDataStep) (c : Call) (hc : c ∈ (handshake db parameter_data steps).trace) :
    c = Call.paramData ∨ ∃ d l, c = Call.putData d l := by
  induction steps generalizing db with
  | nil =>
    simp only [handshake, List.mem_singleton] at hc
    exact Or.inl hc
  | cons s rest ih =>
    simp only [handshake] at hc
    split_ifs at hc <;>
      first
      | (simp only [List.mem_singleton] at hc
         exact Or.inl hc)
      | (simp only [List.mem_cons] at hc
         rcases hc with hc | hc | hc
         · exact Or.inl hc
         · exact Or.inr ⟨_, _, hc⟩
         · exact ih _ hc)

/-- With a matching parameter count the trace of `odbc_execute` is the
`SQLNumParams` call, the calls of the binding loop and, only when the loop ran
to its end, `SQLExecute` and the handshake. -/
theorem odbc_execute_trace (db : ODBCDatabase) (drv : Driver) (input : List MvVariable)
    (hnum : drv.numParamsRet = SQL_SUCCESS) (hcount : drv.numParams = (input.length : Int)) :
    (∀ c, Call.bindParameter c ∈ (odbc_execute db drv input).trace
        ↔ Call.bindParameter c ∈ (bindParams db drv 0 input).trace)
    ∧ (Call.execute ∈ (odbc_execute db drv input).trace
        ↔ (bindParams db drv 0 input).ok = true)
    ∧ ((bindParams db drv 0 input).ok = false → (odbc_execute db drv input).ret = 0) := by
  have hnoex := bindParams_no_execute db drv input 0
  have hnum1 : ¬ drv.numParamsRet ≠ SQL_SUCCESS := by simp [hnum]
  have hcount1 : ¬ drv.numParams ≠ (input.length : Int) := by simp [hcount]
  have hshake : ∀ (c : BindCall) (d : ODBCDatabase) (p : List ODBCParameter),
      Call.bindParameter c ∉ (handshake d p drv.paramData).trace := by
    intro c d p hmem
    rcases handshake_trace d p drv.paramData _ hmem with h | ⟨_, _, h⟩ <;> cases h
  simp only [odbc_execute, if_neg hnum1, if_neg hcount1]
  cases hok : (bindParams db drv 0 input).ok with
  | false =>
    simp [hnoex]
  | true =>
    simp only [Bool.true_eq_false, if_false]
    split_ifs <;> simp <;> (intro c hmem; exact absurd hmem (hshake c _ _))

/-- C9: when `SQLNumParams` succeeds with a count equal to the number of host
inputs, whatever the declared types, the values and the truncate flag:
`odbc_execute` stops before `SQLExecute` only if some `SQLBindParameter` call
it issued returned `SQL_ERROR` (and it then returns 0); if no bind call returns
`SQL_ERROR` then `SQLExecute` is reached; and for a position whose
`SQLDescribeParam` fails, the only bind call issued for that position is the
character bind (`SQL_C_CHAR`, `SQL_CHAR`) of the whole value with bound length
equal to the full value length, and it is issued whenever the binding phase
completes. -/
theorem bind_phase_structural (db : ODBCDatabase) (drv : Driver) (input : List MvVariable)
    (hnum : drv.numParamsRet = SQL_SUCCESS) (hcount : drv.numParams = (input.length : Int)) :
    (Call.execute ∉ (odbc_execute db drv input).trace →
      (odbc_execute db drv input).ret = 0
      ∧ ∃ c, Call.bindParameter c ∈ (odbc_execute db drv input).trace
          ∧ drv.bindParameter c = SQL_ERROR)
    ∧ ((∀ c, drv.bindParameter c ≠ SQL_ERROR) →
        Call.execute ∈ (odbc_execute db drv input).trace)
    ∧ (∀ (i : Nat) (var : MvVariable), input[i]? = some var →
        (drv.describeParam ((i : Int) + 1)).ret ≠ SQL_SUCCESS →
        (var.value.length : Int) < 2147483648 →
        (∀ c, Call.bindParameter c ∈ (odbc_execute db drv input).trace →
          c.ParameterNumber = (i : Int) + 1 → c = fullLengthCharBind i var)
        ∧ (Call.execute ∈ (odbc_execute db drv input).trace →
          Call.bindParameter (fullLengthCharBind i var)
            ∈ (odbc_execute db drv input).trace)) := by
  obtain ⟨hbind, hexec, hret⟩ := odbc_execute_trace db drv input hnum hcount
  refine ⟨?_, ?_, ?_⟩
  · intro hno
    have hfail : (bindParams db drv 0 input).ok = false := by
      cases hok : (bindParams db drv 0 input).ok with
      | false => rfl
      | true => exact absurd (hexec.mpr hok) hno
    obtain ⟨c, hc, hce⟩ := bindParams_failure db drv input 0 hfail
    exact ⟨hret hfail, c, (hbind c).mpr hc, hce⟩
  · intro hall
    exact hexec.mpr (bindParams_success db drv input 0 hall)
  · intro i var hi hdesc hlen
    have hslot := bindSlot_describe_failed db i (drv.describeParam ((i : Int) + 1)) var hdesc hlen
    refine ⟨?_, ?_⟩
    · intro c hc hnumber
      obtain ⟨j, v, hj, hcj⟩ := bindParams_trace_mem db drv input 0 c ((hbind c).mp hc)
      have hpn : c.ParameterNumber = 0 + (j : Int) + 1 := by
        rw [hcj]; exact bindSlot_parameterNumber _ _ _ _ _ _
      have hij : j = i := by omega
      subst hij
      have hv : v = var := by
        rw [hi] at hj
        exact (Option.some.inj hj).symm
      subst hv
      rw [hcj]
      simpa using hslot.1
    · intro hex
      have h := bindParams_all_bound db drv input 0 (hexec.mp hex) i var hi
      rw [hbind]
      simpa [hslot.1] using h

/-- Witness for C9: two host values against a driver that declares two
parameters and cannot describe either; both are bound as characters with their
full lengths, also with the truncate flag on, and `SQLExecute` is reached. -/
theorem bind_phase_structural_witness :
    (undescribingDriver 2).numParamsRet = SQL_SUCCESS
    ∧ (undescribingDriver 2).numParams
        = (([hostString [104, 105], hostString [106, 107, 108]] : List MvVariable).length : Int)
    ∧ Call.execute ∈ (odbc_execute truncatingDb (undescribingDriver 2)
        [hostString [104, 105], hostString [106, 107, 108]]).trace
    ∧ Call.bindParameter (fullLengthCharBind 1 (hostString [106, 107, 108]))
        ∈ (odbc_execute truncatingDb (undescribingDriver 2)
            [hostString [104, 105], hostString [106, 107, 108]]).trace :=
  have h := bind_phase_structural truncatingDb (undescribingDriver 2)
    [hostString [104, 105], hostString [106, 107, 108]] rfl rfl
  have hex := h.2.1 (fun c => by show SQL_SUCCESS ≠ SQL_ERROR; decide)
  ⟨rfl, rfl, hex,
   ((h.2.2 1 (hostString [106, 107, 108]) rfl (by decide) (by decide)).2 hex)⟩

/-! ### C11: a failed put during the handshake -/

/-- The calls of the handshake: the rounds that supply data, one after the
other, and a last `SQLParamData`. -/
theorem handshake_rounds (db : ODBCDatabase) (parameter_data : List ODBCParameter)
    (steps : List ParamDataStep) :
    (handshake db parameter_data steps).trace
      = (needDataRounds steps).flatMap (roundCalls parameter_data) ++ [Call.paramData] := by
  induction steps generalizing db with
  | nil => rfl
  | cons s rest ih =>
    by_cases h : s.ret = SQL_NEED_DATA
    · have hround : needDataRounds (s :: rest) = s :: needDataRounds rest := by
        simp [needDataRounds, List.takeWhile_cons, h]
      simp only [handshake, if_pos h, hround, List.flatMap_cons, roundCalls, List.cons_append,
        List.nil_append]
      rw [ih]
    · have hround : needDataRounds (s :: rest) = [] := by
        simp [needDataRounds, List.takeWhile_cons, h]
      simp only [handshake, if_neg h, hround, List.flatMap_nil, List.nil_append]
      split_ifs <;> rfl

theorem handshake_ok (db : ODBCDatabase) (parameter_data : List ODBCParameter)
    (steps : List ParamDataStep) (hne : ∀ s ∈ steps, s.ret ≠ SQL_ERROR) :
    (handshake db parameter_data steps).ok = true := by
  induction steps generalizing db with
  | nil => rfl
  | cons s rest ih =>
    have hs : s.ret ≠ SQL_ERROR := hne s (List.mem_cons_self _ _)
    have hrest : ∀ t ∈ rest, t.ret ≠ SQL_ERROR := fun t ht => hne t (List.mem_cons_of_mem _ ht)
    by_cases h : s.ret = SQL_NEED_DATA
    · simp only [handshake, if_pos h]
      exact ih _ hrest
    · simp only [handshake, if_neg h, if_neg hs]

theorem handshake_error (db : ODBCDatabase) (parameter_data : List ODBCParameter)
    (steps : List ParamDataStep) (hne : ∀ s ∈ steps, s.ret ≠ SQL_ERROR) :
    (handshake db parameter_data steps).db.error
      = ((lastFailedPut steps).map
          (fun s => odbc_error_message "SQLPutData: " s.putDiag SQL_HANDLE_STMT)).getD
          db.error := by
  induction steps generalizing db with
  | nil => rfl
  | cons s rest ih =>
    have hs : s.ret ≠ SQL_ERROR := hne s (List.mem_cons_self _ _)
    have hrest : ∀ t ∈ rest, t.ret ≠ SQL_ERROR := fun t ht => hne t (List.mem_cons_of_mem _ ht)
    by_cases h : s.ret = SQL_NEED_DATA
    · have hround : needDataRounds (s :: rest) = s :: needDataRounds rest := by
        simp [needDataRounds, List.takeWhile_cons, h]
      simp only [handshake, if_pos h]
      rw [ih _ hrest]
      by_cases hput : s.putRet ≠ SQL_SUCCESS
      · have hf : decide (s.putRet ≠ SQL_SUCCESS) = true := by simpa using hput
        have hlast : lastFailedPut (s :: rest) = some ((lastFailedPut rest).getD s) := by
          unfold lastFailedPut
          rw [hround, List.filter_cons, if_pos hf, List.getLast?_cons]
        rw [hlast, if_pos hput]
        cases hl : lastFailedPut rest with
        | none => simp [odbc_error]
        | some t => simp
      · have hf : ¬ (decide (s.putRet ≠ SQL_SUCCESS) = true) := by simpa using hput
        have hlast : lastFailedPut (s :: rest) = lastFailedPut rest := by
          unfold lastFailedPut
          rw [hround, List.filter_cons, if_neg hf]
        rw [hlast, if_neg hput]
    · have hround : needDataRounds (s :: rest) = [] := by
        simp [needDataRounds, List.takeWhile_cons, h]
      simp only [handshake, if_neg h, if_neg hs, lastFailedPut, hround]
      rfl

theorem bindParams_db_of_ok (db : ODBCDatabase) (drv : Driver) (input : List MvVariable)
    (param : Int) (hok : (bindParams db drv param input).ok = true) :
    (bindParams db drv param input).db = db := by
  induction input generalizing param with
  | nil => rfl
  | cons var rest ih =>
    simp only [bindParams] at hok ⊢
    split_ifs at hok ⊢ with herr
    exact ih (param + 1) hok

/-- The message of `odbc_error` starts with the prefix it was given. -/
theorem odbc_error_message_starts (pfx : String) (d : Diag) (handle_type : Int) :
    ∃ rest, odbc_error_message pfx d handle_type = pfx ++ rest := by
  obtain ⟨recs, legacy⟩ := d
  cases recs with
  | cons r rs =>
    obtain ⟨flags, _, h⟩ := foldl_appendRecord_blocks (r :: rs)
      (pfx, toInt32 (toSizeT (toSizeT (ERROR_SIZE - strlen pfx) - 1)))
    exact ⟨_, h⟩
  | nil =>
    cases legacy with
    | none => exact ⟨"Unknown error", by simp [odbc_error_message]⟩
    | some r =>
      by_cases h : handle_type = SQL_HANDLE_STMT
      · obtain ⟨f, hf⟩ := appendRecord_blocks
          (pfx, toInt32 (toSizeT (toSizeT (ERROR_SIZE - strlen pfx) - 1))) r
        exact ⟨_, by simpa [odbc_error_message, h] using hf⟩
      · exact ⟨"Unknown error", by simp [odbc_error_message, h]⟩

/-- C11: when the parameters were bound, `SQLExecute` returns `SQL_NEED_DATA`
and no `SQLParamData` round of the finite handshake returns `SQL_ERROR`,
`odbc_execute` returns 1 whatever the `SQLPutData` calls return; every round
that supplies data, failed or not, is followed by the next `SQLParamData`
call; and if some put failed the session's error text at return is the
message recorded for the last failed put, which starts with "SQLPutData: "
(if none failed the text is untouched). -/
theorem put_failure_swallowed (db : ODBCDatabase) (drv : Driver) (input : List MvVariable)
    (hnum : drv.numParamsRet = SQL_SUCCESS) (hcount : drv.numParams = (input.length : Int))
    (hbind : (bindParams db drv 0 input).ok = true)
    (hexec : drv.executeRet = SQL_NEED_DATA)
    (hpd : ∀ s ∈ drv.paramData, s.ret ≠ SQL_ERROR) :
    (odbc_execute db drv input).ret = 1
    ∧ (odbc_execute db drv input).trace
        = Call.numParams :: ((bindParams db drv 0 input).trace ++ Call.execute ::
            ((needDataRounds drv.paramData).flatMap
                (roundCalls (bindParams db drv 0 input).parameter_data)
              ++ [Call.paramData]))
    ∧ (∀ s, lastFailedPut drv.paramData = some s →
        (odbc_execute db drv input).db.error
          = odbc_error_message "SQLPutData: " s.putDiag SQL_HANDLE_STMT
        ∧ ∃ rest, (odbc_execute db drv input).db.error = "SQLPutData: " ++ rest)
    ∧ (lastFailedPut drv.paramData = none →
        (odbc_execute db drv input).db.error = db.error) := by
  have hnum1 : ¬ drv.numParamsRet ≠ SQL_SUCCESS := by simp [hnum]
  have hcount1 : ¬ drv.numParams ≠ (input.length : Int) := by simp [hcount]
  have hne : ¬ drv.executeRet = SQL_ERROR := by rw [hexec]; decide
  have hval : odbc_execute db drv input
      = { ret := 1
          db := (handshake db (bindParams db drv 0 input).parameter_data drv.paramData).db
          trace := Call.numParams :: ((bindParams db drv 0 input).trace ++ Call.execute ::
            (handshake db (bindParams db drv 0 input).parameter_data drv.paramData).trace) } := by
    simp only [odbc_execute, if_neg hnum1, if_neg hcount1, hbind, Bool.true_eq_false, if_false,
      if_neg hne, if_pos hexec, bindParams_db_of_ok db drv input 0 hbind,
      handshake_ok db _ drv.paramData hpd, if_true]
  have herr := handshake_error db (bindParams db drv 0 input).parameter_data drv.paramData hpd
  rw [hval]
  refine ⟨rfl, ?_, ?_, ?_⟩
  · simp only [handshake_rounds]
  · intro s hs
    have h1 : (handshake db (bindParams db drv 0 input).parameter_data drv.paramData).db.error
        = odbc_error_message "SQLPutData: " s.putDiag SQL_HANDLE_STMT := by
      rw [herr, hs]; rfl
    refine ⟨h1, ?_⟩
    obtain ⟨rest, hrest⟩ := odbc_error_message_starts "SQLPutData: " s.putDiag SQL_HANDLE_STMT
    exact ⟨rest, h1.trans hrest⟩
  · intro hnone
    show (handshake db (bindParams db drv 0 input).parameter_data drv.paramData).db.error
      = db.error
    rw [herr, hnone]; rfl

/-- Witness for C11: one long-character parameter, three rounds of which the
first two puts fail; `odbc_execute` returns 1 and the error text is the one
of the second put. -/
theorem put_failure_swallowed_witness :
    failingPutDriver.numParamsRet = SQL_SUCCESS
    ∧ failingPutDriver.numParams = (([hostString [104, 105]] : List MvVariable).length : Int)
    ∧ failingPutDriver.executeRet = SQL_NEED_DATA
    ∧ (odbc_execute sampleDb failingPutDriver [hostString [104, 105]]).ret = 1
    ∧ (odbc_execute sampleDb failingPutDriver [hostString [104, 105]]).db.error
        = "SQLPutData: HY000: second put failed" :=
  have h := put_failure_swallowed sampleDb failingPutDriver [hostString [104, 105]] rfl rfl
    (by decide) rfl (by decide)
  ⟨rfl, rfl, rfl, h.1,
   (h.2.2.1 ⟨SQL_NEED_DATA, 0, noDiag, SQL_ERROR, oneRecord "second put failed"⟩
      (by decide)).1.trans (by decide)⟩

/-! ### C12: long character and binary parameters -/

theorem bindSlot_long (db : ODBCDatabase) (param datatype column_size digits : Int)
    (var : MvVariable) (hlong : datatype = SQL_LONGVARCHAR ∨ datatype = SQL_LONGVARBINARY) :
    bindSlot db param datatype column_size digits var
      = ({ ODBCParameter.zero with
           data_string := some var.value
           data_string_length := var.value.length
           cbData := SQL_LEN_DATA_AT_EXEC 0 }, deferredBind param datatype) := by
  simp only [bindSlot, if_pos hlong, deferredBind]

/-- When the loop runs to its end, `parameter_data` holds the slot of every
input at its position. -/
theorem bindParams_parameter_data (db : ODBCDatabase) (drv : Driver) (input : List MvVariable)
    (param : Int) (hok : (bindParams db drv param input).ok = true) (i : Nat)
    (var : MvVariable) (hi : input[i]? = some var) :
    (bindParams db drv param input).parameter_data[i]?
      = some (bindSlot db (param + i)
          (describeOrDefault (drv.describeParam (param + i + 1))).1
          (describeOrDefault (drv.describeParam (param + i + 1))).2.1
          (describeOrDefault (drv.describeParam (param + i + 1))).2.2 var).1 := by
  induction input generalizing param i with
  | nil => simp at hi
  | cons v rest ih =>
    simp only [bindParams] at hok ⊢
    split_ifs at hok ⊢ with herr
    cases i with
    | zero =>
      simp only [List.getElem?_cons_zero, Option.some.injEq] at hi
      subst hi
      simp
    | succ j =>
      simp only [List.getElem?_cons_succ] at hi
      have h := ih (param + 1) hok j hi
      have e : param + ((j + 1 : Nat) : Int) = param + 1 + j := by push_cast; ring
      rw [e]
      simpa using h

theorem paramAt_of_getElem? (parameter_data : List ODBCParameter) (i : Nat) (p : ODBCParameter)
    (h : parameter_data[i]? = some p) : paramAt parameter_data (i : Int) = p := by
  have h0 : (0 : Int) ≤ (i : Int) := Int.natCast_nonneg i
  simp only [paramAt, if_pos h0, Int.toNat_ofNat, List.getD_eq_getElem?_getD, h, Option.getD_some]

/-- C12: for a parameter at zero-based position `i` that `SQLDescribeParam`
reports as long character or long binary, whatever the value (also an empty
one) and the truncate flag: the only `SQLBindParameter` call `odbc_execute`
issues for it binds no inline data (no buffer, buffer length 0), carries the
at-execution indicator `SQL_LEN_DATA_AT_EXEC( 0 )` and the position `i` as
token, and is issued whenever the binding phase completes; and in every round
of the handshake in which `SQLParamData` returns that token the code answers
with one `SQLPutData` call whose payload is the host value, byte for byte, with
its full length. -/
theorem long_parameter_deferred (db : ODBCDatabase) (drv : Driver) (input : List MvVariable)
    (i : Nat) (var : MvVariable)
    (hnum : drv.numParamsRet = SQL_SUCCESS) (hcount : drv.numParams = (input.length : Int))
    (hi : input[i]? = some var)
    (hdesc : (drv.describeParam ((i : Int) + 1)).ret = SQL_SUCCESS)
    (hlong : (drv.describeParam ((i : Int) + 1)).datatype = SQL_LONGVARCHAR
      ∨ (drv.describeParam ((i : Int) + 1)).datatype = SQL_LONGVARBINARY) :
    (∀ c, Call.bindParameter c ∈ (odbc_execute db drv input).trace →
        c.ParameterNumber = (i : Int) + 1 →
        c = deferredBind i (drv.describeParam ((i : Int) + 1)).datatype)
    ∧ (Call.execute ∈ (odbc_execute db drv input).trace →
        Call.bindParameter (deferredBind i (drv.describeParam ((i : Int) + 1)).datatype)
          ∈ (odbc_execute db drv input).trace)
    ∧ (Call.execute ∈ (odbc_execute db drv input).trace →
        ∀ s : ParamDataStep, toInt32 s.token = (i : Int) →
          roundCalls (bindParams db drv 0 input).parameter_data s
            = [Call.paramData, Call.putData (some var.value) var.value.length])
    ∧ (Call.execute ∈ (odbc_execute db drv input).trace → drv.executeRet = SQL_NEED_DATA →
        ∀ s ∈ needDataRounds drv.paramData, toInt32 s.token = (i : Int) →
          Call.putData (some var.value) var.value.length
            ∈ (odbc_execute db drv input).trace) := by
  obtain ⟨hbind, hexec, hret⟩ := odbc_execute_trace db drv input hnum hcount
  have hd : describeOrDefault (drv.describeParam ((i : Int) + 1))
      = ((drv.describeParam ((i : Int) + 1)).datatype,
         (drv.describeParam ((i : Int) + 1)).column_size,
         (drv.describeParam ((i : Int) + 1)).digits) := by
    simp [describeOrDefault, hdesc]
  have hslot : bindSlot db (0 + (i : Int))
        (describeOrDefault (drv.describeParam (0 + (i : Int) + 1))).1
        (describeOrDefault (drv.describeParam (0 + (i : Int) + 1))).2.1
        (describeOrDefault (drv.describeParam (0 + (i : Int) + 1))).2.2 var
      = ({ ODBCParameter.zero with
           data_string := some var.value
           data_string_length := var.value.length
           cbData := SQL_LEN_DATA_AT_EXEC 0 },
         deferredBind i (drv.describeParam ((i : Int) + 1)).datatype) := by
    rw [zero_add, hd]
    exact bindSlot_long db i _ _ _ var hlong
  have hround : (bindParams db drv 0 input).ok = true → ∀ s : ParamDataStep,
      toInt32 s.token = (i : Int) →
      roundCalls (bindParams db drv 0 input).parameter_data s
        = [Call.paramData, Call.putData (some var.value) var.value.length] := by
    intro hok s hs
    have hp := bindParams_parameter_data db drv input 0 hok i var hi
    rw [hslot] at hp
    simp only [roundCalls, hs, paramAt_of_getElem? _ i _ hp]
  refine ⟨?_, ?_, ?_, ?_⟩
  · intro c hc hnumber
    obtain ⟨j, v, hj, hcj⟩ := bindParams_trace_mem db drv input 0 c ((hbind c).mp hc)
    have hpn : c.ParameterNumber = 0 + (j : Int) + 1 := by
      rw [hcj]; exact bindSlot_parameterNumber _ _ _ _ _ _
    have hij : j = i := by omega
    subst hij
    have hv : v = var := by
      rw [hi] at hj
      exact (Option.some.inj hj).symm
    subst hv
    rw [hcj, hslot]
  · intro hex
    have h := bindParams_all_bound db drv input 0 (hexec.mp hex) i var hi
    rw [hslot] at h
    exact (hbind _).mpr h
  · intro hex
    exact hround (hexec.mp hex)
  · intro hex hneed s hs htok
    have hok := hexec.mp hex
    have hnum1 : ¬ drv.numParamsRet ≠ SQL_SUCCESS := by simp [hnum]
    have hcount1 : ¬ drv.numParams ≠ (input.length : Int) := by simp [hcount]
    have hne : ¬ drv.executeRet = SQL_ERROR := by rw [hneed]; decide
    have htrace : (odbc_execute db drv input).trace
        = Call.numParams :: ((bindParams db drv 0 input).trace ++ Call.execute ::
            (handshake (bindParams db drv 0 input).db (bindParams db drv 0 input).parameter_data
              drv.paramData).trace) := by
      simp only [odbc_execute, if_neg hnum1, if_neg hcount1, hok, Bool.true_eq_false, if_false,
        if_neg hne, if_pos hneed]
    have hin : Call.putData (some var.value) var.value.length
        ∈ roundCalls (bindParams db drv 0 input).parameter_data s := by
      rw [hround hok s htok]; simp
    rw [htrace, handshake_rounds]
    simp only [List.mem_cons, List.mem_append, List.mem_flatMap]
    exact Or.inr (Or.inr (Or.inr (Or.inl ⟨s, hs, hin⟩)))

/-- Witness for C12: an empty value for a long binary second parameter, with
the truncate flag on. -/
theorem long_parameter_deferred_witness :
    longParamDriver.numParamsRet = SQL_SUCCESS
    ∧ longParamDriver.numParams
        = (([hostString [104, 105], hostString []] : List MvVariable).length : Int)
    ∧ Call.bindParameter (deferredBind 1 SQL_LONGVARBINARY)
        ∈ (odbc_execute truncatingDb longParamDriver
            [hostString [104, 105], hostString []]).trace
    ∧ Call.putData (some []) 0
        ∈ (odbc_execute truncatingDb longParamDriver
            [hostString [104, 105], hostString []]).trace :=
  have h := long_parameter_deferred truncatingDb longParamDriver
    [hostString [104, 105], hostString []] 1 (hostString []) rfl rfl rfl rfl (Or.inr rfl)
  ⟨rfl, rfl, h.2.1 (by decide),
   h.2.2.2 (by decide) rfl ⟨SQL_NEED_DATA, 1, noDiag, SQL_SUCCESS, noDiag⟩ (by decide)
     (by decide)⟩

/-! ### C13: classification of result columns -/

/-- The classification of `odbc_bind_columns` is total and follows the type
code: integer for bigint, tinyint, smallint, integer and bit; double for
numeric, decimal, real, float and double; large object, with no `SQLBindCol`
call and the ordinal recorded, for long varchar and long varbinary; string for
every other code. -/
theorem columnSlot_type (i fSqlType ibPrecision ibScale : Int) :
    ((columnSlot i fSqlType ibPrecision ibScale).1.type = ODBC_INTEGER
      ↔ fSqlType = SQL_BIGINT ∨ fSqlType = SQL_TINYINT ∨ fSqlType = SQL_SMALLINT
          ∨ fSqlType = SQL_INTEGER ∨ fSqlType = SQL_BIT)
    ∧ ((columnSlot i fSqlType ibPrecision ibScale).1.type = ODBC_DOUBLE
      ↔ fSqlType = SQL_NUMERIC ∨ fSqlType = SQL_DECIMAL ∨ fSqlType = SQL_REAL
          ∨ fSqlType = SQL_FLOAT ∨ fSqlType = SQL_DOUBLE)
    ∧ ((columnSlot i fSqlType ibPrecision ibScale).1.type = ODBC_BLOB
      ↔ fSqlType = SQL_LONGVARCHAR ∨ fSqlType = SQL_LONGVARBINARY)
    ∧ ((columnSlot i fSqlType ibPrecision ibScale).1.type = ODBC_BLOB →
        (columnSlot i fSqlType ibPrecision ibScale).2 = none
        ∧ (columnSlot i fSqlType ibPrecision ibScale).1.data_blob_col = i) := by
  unfold columnSlot
  simp only [SQL_BIGINT, SQL_TINYINT, SQL_SMALLINT, SQL_INTEGER, SQL_BIT, SQL_NUMERIC,
    SQL_DECIMAL, SQL_REAL, SQL_FLOAT, SQL_DOUBLE, SQL_LONGVARCHAR, SQL_LONGVARBINARY]
  split_ifs <;> simp_all <;> omega

/-- The capacity of a string column is 50 when precision and scale are both 0,
and `precision + scale + 1` otherwise, as long as that sum fits the signed
32-bit `data_string_size`. -/
theorem columnSlot_capacity_in_range (i fSqlType ibPrecision ibScale : Int)
    (hstring : (columnSlot i fSqlType ibPrecision ibScale).1.type = ODBC_STRING)
    (hlo : -2147483648 ≤ ibPrecision + ibScale + 1)
    (hhi : ibPrecision + ibScale + 1 < 2147483648) :
    (columnSlot i fSqlType ibPrecision ibScale).1.data_string_size
      = if ibPrecision = 0 ∧ ibScale = 0 then 50 else ibPrecision + ibScale + 1 := by
  have hwrap : toInt32 (toUInt32 (toUInt32 (ibPrecision + toUInt32 ibScale) + 1))
      = ibPrecision + ibScale + 1 := by
    unfold toInt32 toUInt32
    omega
  unfold columnSlot at hstring ⊢
  split_ifs at hstring ⊢ <;> simp_all

/-- Beyond that range the stored capacity is the sum reduced to 32 bits: a
`SQL_VARCHAR` column of precision 2147483647 gets `data_string_size`
-2147483648. -/
theorem columnSlot_capacity_wraps :
    (columnSlot 1 SQL_VARCHAR 2147483647 0).1.type = ODBC_STRING
    ∧ (columnSlot 1 SQL_VARCHAR 2147483647 0).1.data_string_size = -2147483648 := by
  decide

/-- Every variable `odbc_bind_columns` adds after the three synthetic ones is
the slot of the `switch` for the description of some column. -/
theorem bindColumnsFrom_added (db : ODBCDatabase) (drv : ColumnDriver) (count : Nat) (i : Int)
    (v : String × ODBCDatabaseVariable) (hv : v ∈ (bindColumnsFrom db drv count i).added) :
    ∃ j : Int, i ≤ j ∧ v = ((drv.describeCol j).szColName,
      (columnSlot j (drv.describeCol j).fSqlType (drv.describeCol j).ibPrecision
        (drv.describeCol j).ibScale).1) := by
  induction count generalizing i with
  | zero => simp [bindColumnsFrom] at hv
  | succ n ih =>
    simp only [bindColumnsFrom] at hv
    split_ifs at hv with hd
    · simp at hv
    · split at hv
      · split_ifs at hv with hb
        · simp at hv
        · simp only [List.mem_cons] at hv
          rcases hv with hv | hv
          · exact ⟨i, le_refl _, hv⟩
          · obtain ⟨j, hj, hvj⟩ := ih (i + 1) hv
            exact ⟨j, by omega, hvj⟩
      · simp only [List.mem_cons] at hv
        rcases hv with hv | hv
        · exact ⟨i, le_refl _, hv⟩
        · obtain ⟨j, hj, hvj⟩ := ih (i + 1) hv
          exact ⟨j, by omega, hvj⟩

/-- The classification of the `switch` is total and follows the SQL type
code: a column is integer-typed exactly for bigint, tinyint,
smallint, integer and bit, double-typed exactly for numeric, decimal, real,
float and double, a large object (no `SQLBindCol` call, ordinal recorded)
exactly for long varchar and long varbinary, and string-typed for every other
code; a string column has capacity 50 when precision and scale are both 0 and
otherwise the 32-bit value of `precision + scale + 1`, which is
`precision + scale + 1` itself whenever that fits the signed 32-bit field. -/
theorem column_classification (i fSqlType ibPrecision ibScale : Int) :
    ((columnSlot i fSqlType ibPrecision ibScale).1.type = ODBC_INTEGER
      ↔ fSqlType = SQL_BIGINT ∨ fSqlType = SQL_TINYINT ∨ fSqlType = SQL_SMALLINT
          ∨ fSqlType = SQL_INTEGER ∨ fSqlType = SQL_BIT)
    ∧ ((columnSlot i fSqlType ibPrecision ibScale).1.type = ODBC_DOUBLE
      ↔ fSqlType = SQL_NUMERIC ∨ fSqlType = SQL_DECIMAL ∨ fSqlType = SQL_REAL
          ∨ fSqlType = SQL_FLOAT ∨ fSqlType = SQL_DOUBLE)
    ∧ ((columnSlot i fSqlType ibPrecision ibScale).1.type = ODBC_BLOB
      ↔ fSqlType = SQL_LONGVARCHAR ∨ fSqlType = SQL_LONGVARBINARY)
    ∧ ((columnSlot i fSqlType ibPrecision ibScale).1.type = ODBC_BLOB →
        (columnSlot i fSqlType ibPrecision ibScale).2 = none
        ∧ (columnSlot i fSqlType ibPrecision ibScale).1.data_blob_col = i)
    ∧ ((columnSlot i fSqlType ibPrecision ibScale).1.type = ODBC_STRING
      ↔ ¬ (fSqlType = SQL_BIGINT ∨ fSqlType = SQL_TINYINT ∨ fSqlType = SQL_SMALLINT
            ∨ fSqlType = SQL_INTEGER ∨ fSqlType = SQL_BIT)
        ∧ ¬ (fSqlType = SQL_NUMERIC ∨ fSqlType = SQL_DECIMAL ∨ fSqlType = SQL_REAL
            ∨ fSqlType = SQL_FLOAT ∨ fSqlType = SQL_DOUBLE)
        ∧ ¬ (fSqlType = SQL_LONGVARCHAR ∨ fSqlType = SQL_LONGVARBINARY))
    ∧ ((columnSlot i fSqlType ibPrecision ibScale).1.type = ODBC_STRING →
        (ibPrecision = 0 → ibScale = 0 →
          (columnSlot i fSqlType ibPrecision ibScale).1.data_string_size = 50)
        ∧ (¬ (ibPrecision = 0 ∧ ibScale = 0) →
          (columnSlot i fSqlType ibPrecision ibScale).1.data_string_size
            = toInt32 (ibPrecision + ibScale + 1))
        ∧ (¬ (ibPrecision = 0 ∧ ibScale = 0) →
          -2147483648 ≤ ibPrecision + ibScale + 1 → ibPrecision + ibScale + 1 < 2147483648 →
          (columnSlot i fSqlType ibPrecision ibScale).1.data_string_size
            = ibPrecision + ibScale + 1)) := by
  obtain ⟨h1, h2, h3, h4⟩ := columnSlot_type i fSqlType ibPrecision ibScale
  refine ⟨h1, h2, h3, h4, ?_, ?_⟩
  · rw [← h1, ← h2, ← h3]
    cases (columnSlot i fSqlType ibPrecision ibScale).1.type <;> simp
  intro hstring
  have hwrap : toInt32 (toUInt32 (toUInt32 (ibPrecision + toUInt32 ibScale) + 1))
      = toInt32 (ibPrecision + ibScale + 1) := by
    unfold toInt32 toUInt32
    omega
  refine ⟨?_, ?_, ?_⟩
  · intro hp hs
    have h := columnSlot_capacity_in_range i fSqlType ibPrecision ibScale hstring
      (by omega) (by omega)
    rw [h, if_pos ⟨hp, hs⟩]
  · intro hne
    rw [← hwrap]
    unfold columnSlot at hstring ⊢
    split_ifs at hstring ⊢
    simp_all
  · intro hne hlo hhi
    have h := columnSlot_capacity_in_range i fSqlType ibPrecision ibScale hstring hlo hhi
    rw [h, if_neg hne]

/-- Two instances: a `VARCHAR(20)` column gets capacity 21, and a column
described with precision 0 and scale 0 gets capacity 50. -/
theorem column_classification_witness :
    (columnSlot 1 SQL_VARCHAR 20 0).1.type = ODBC_STRING
    ∧ (columnSlot 1 SQL_VARCHAR 20 0).1.data_string_size = 20 + 0 + 1
    ∧ (columnSlot 2 SQL_CHAR 0 0).1.type = ODBC_STRING
    ∧ (columnSlot 2 SQL_CHAR 0 0).1.data_string_size = 50 :=
  ⟨by decide,
   ((column_classification 1 SQL_VARCHAR 20 0).2.2.2.2.2 (by decide)).2.2 (by decide) (by decide)
     (by decide),
   by decide,
   ((column_classification 2 SQL_CHAR 0 0).2.2.2.2.2 (by decide)).1 rfl rfl⟩

/-! ### C14: the end-of-set flag in scrollable mode -/

/-- C14, counterexample: a scrollable view on row 2 of a three-row result set.
The request for row 7 finds no data and sets the end-of-set flag; the request
for row 3 that follows is positioned by the driver with `SQL_SUCCESS`, and
leaves the row number 3 with the end-of-set flag still 1, not 0. -/
theorem scrollable_success_keeps_eof :
    (odbc_load_row (resultSetDriver 3) 2 (sampleView 0 2) 7 0).view.eof.data_integer = 1
    ∧ (resultSetDriver 3 (odbc_load_row (resultSetDriver 3) 2 (sampleView 0 2) 7 0).drv
        ⟨SQL_FETCH_ABSOLUTE, 3⟩).1.ret = SQL_SUCCESS
    ∧ (odbc_load_row (resultSetDriver 3)
        (odbc_load_row (resultSetDriver 3) 2 (sampleView 0 2) 7 0).drv
        (odbc_load_row (resultSetDriver 3) 2 (sampleView 0 2) 7 0).view 3 0).ret = 1
    ∧ (odbc_load_row (resultSetDriver 3)
        (odbc_load_row (resultSetDriver 3) 2 (sampleView 0 2) 7 0).drv
        (odbc_load_row (resultSetDriver 3) 2 (sampleView 0 2) 7 0).view 3 0).view.recno.data_integer
        = 3
    ∧ (odbc_load_row (resultSetDriver 3)
        (odbc_load_row (resultSetDriver 3) 2 (sampleView 0 2) 7 0).drv
        (odbc_load_row (resultSetDriver 3) 2 (sampleView 0 2) 7 0).view 3 0).view.eof.data_integer
        = 1 := by
  decide

/-- C14, as amended: in scrollable mode, from every cursor state, an
`odbc_load_row` whose absolute fetch returns neither `SQL_ERROR` nor
`SQL_NO_DATA_FOUND` returns 1, sets the row number to the target and leaves the
end-of-set flag exactly as it was before the call: 0 if it was 0, and still 1
if an earlier request had set it. -/
theorem scrollable_success_positions {σ : Type} (fetch : σ → FetchCall → FetchResult × σ)
    (drv : σ) (view : ODBCDatabaseView) (row g : Int) (hsc : view.forwardonly = 0)
    (he : (fetch drv ⟨SQL_FETCH_ABSOLUTE, row⟩).1.ret ≠ SQL_ERROR)
    (hn : (fetch drv ⟨SQL_FETCH_ABSOLUTE, row⟩).1.ret ≠ SQL_NO_DATA_FOUND) :
    (odbc_load_row fetch drv view row g).ret = 1
    ∧ (odbc_load_row fetch drv view row g).view.recno.data_integer = row
    ∧ (odbc_load_row fetch drv view row g).view.eof.data_integer = view.eof.data_integer
    ∧ (view.eof.data_integer = 0 →
        (odbc_load_row fetch drv view row g).view.eof.data_integer = 0) := by
  simp [odbc_load_row, hsc, he, hn, finishLoad]

/-- Witness for C14 as amended: a scrollable view on row 2 of a three-row
result set with the end-of-set flag clear; the request for row 3 leaves the
row number 3 and the flag 0. -/
theorem scrollable_success_positions_witness :
    (sampleView 0 2).forwardonly = 0
    ∧ (resultSetDriver 3 2 ⟨SQL_FETCH_ABSOLUTE, 3⟩).1.ret ≠ SQL_ERROR
    ∧ (resultSetDriver 3 2 ⟨SQL_FETCH_ABSOLUTE, 3⟩).1.ret ≠ SQL_NO_DATA_FOUND
    ∧ (odbc_load_row (resultSetDriver 3) 2 (sampleView 0 2) 3 0).view.recno.data_integer = 3
    ∧ (odbc_load_row (resultSetDriver 3) 2 (sampleView 0 2) 3 0).view.eof.data_integer = 0 :=
  have h := scrollable_success_positions (resultSetDriver 3) 2 (sampleView 0 2) 3 0 rfl
    (by decide) (by decide)
  ⟨rfl, by decide, by decide, h.2.1, h.2.2.2 rfl⟩

/-! ### C16: the deleted flag -/

/-- A forward-only call that issues no fetch sets the deleted flag from the
value the uninitialised `rgfStatus` holds, whatever any fetch reported. -/
theorem forward_no_fetch_deleted {σ : Type} (fetch : σ → FetchCall → FetchResult × σ)
    (drv : σ) (view : ODBCDatabaseView) (row g : Int) (hfo : view.forwardonly ≠ 0)
    (hstay : ¬ (view.eof.data_integer = 0 ∧ view.recno.data_integer < row)) :
    (odbc_load_row fetch drv view row g).ret = 1
    ∧ (odbc_load_row fetch drv view row g).fetches = []
    ∧ (odbc_load_row fetch drv view row g).view.deleted.data_integer
        = if g = SQL_ROW_DELETED then 1 else 0 := by
  have hstop := forwardLoop_stop fetch row (row - view.recno.data_integer).toNat
    { view := view, drv := drv, rgfStatus := g, fetches := [] } hstay
  simp [odbc_load_row, hfo, hstop, finishLoad]

/-- C16: a forward-only view over two rows of which the second has row status
`SQL_ROW_DELETED`.  Loading row 2 fetches it and sets the deleted flag to 1.
Loading row 2 again issues no fetch and returns 1, and the deleted flag becomes
0 when the uninitialised `rgfStatus` holds 0, although the status reported
when row 2 was fetched is `SQL_ROW_DELETED`; over two rows that are not
deleted the same call sets the flag to 1 when `rgfStatus` holds 1. -/
theorem deleted_flag_from_uninitialised_status :
    (odbc_load_row (rowStatusDriver [0, 1]) 0 (sampleView 1 0) 2 0).ret = 1
    ∧ (odbc_load_row (rowStatusDriver [0, 1]) 0 (sampleView 1 0) 2 0).view.recno.data_integer = 2
    ∧ (odbc_load_row (rowStatusDriver [0, 1]) 0 (sampleView 1 0) 2 0).view.deleted.data_integer
        = 1
    ∧ (odbc_load_row (rowStatusDriver [0, 1])
        (odbc_load_row (rowStatusDriver [0, 1]) 0 (sampleView 1 0) 2 0).drv
        (odbc_load_row (rowStatusDriver [0, 1]) 0 (sampleView 1 0) 2 0).view 2 0).ret = 1
    ∧ (odbc_load_row (rowStatusDriver [0, 1])
        (odbc_load_row (rowStatusDriver [0, 1]) 0 (sampleView 1 0) 2 0).drv
        (odbc_load_row (rowStatusDriver [0, 1]) 0 (sampleView 1 0) 2 0).view 2 0).fetches = []
    ∧ (odbc_load_row (rowStatusDriver [0, 1])
        (odbc_load_row (rowStatusDriver [0, 1]) 0 (sampleView 1 0) 2 0).drv
        (odbc_load_row (rowStatusDriver [0, 1]) 0 (sampleView 1 0) 2 0).view 2
          0).view.deleted.data_integer = 0
    ∧ (odbc_load_row (rowStatusDriver [0, 0]) 0 (sampleView 1 0) 2 0).view.deleted.data_integer
        = 0
    ∧ (odbc_load_row (rowStatusDriver [0, 0])
        (odbc_load_row (rowStatusDriver [0, 0]) 0 (sampleView 1 0) 2 0).drv
        (odbc_load_row (rowStatusDriver [0, 0]) 0 (sampleView 1 0) 2 0).view 2
          1).view.deleted.data_integer = 1 := by
  decide

/-! ### C17: preferred type and accessors -/

/-- Unless the length indicator is `SQL_NO_DATA`, the accessor that matches
the preferred type succeeds, the three type constants being distinct. -/
theorem preferred_type_accessor_unless_no_data {σ : Type} (api : Mivapi)
    (getData : σ → GetDataCall → GetDataResult × σ) (drv : σ) (db : ODBCDatabase)
    (var : ODBCDatabaseVariable)
    (his : api.MVD_TYPE_INTEGER ≠ api.MVD_TYPE_STRING)
    (hds : api.MVD_TYPE_DOUBLE ≠ api.MVD_TYPE_STRING)
    (hid : api.MVD_TYPE_INTEGER ≠ api.MVD_TYPE_DOUBLE)
    (hnd : var.cbData ≠ SQL_NO_DATA) :
    (odbc_dbvar_preferred_type api var = api.MVD_TYPE_INTEGER →
        odbc_dbvar_getvalue_int var = (1, some var.data_integer))
    ∧ (odbc_dbvar_preferred_type api var = api.MVD_TYPE_DOUBLE →
        odbc_dbvar_getvalue_double var = (1, some var.data_double))
    ∧ (odbc_dbvar_preferred_type api var = api.MVD_TYPE_STRING →
        (odbc_dbvar_getvalue_string api getData drv db var).ret = 1) := by
  by_cases hnull : var.cbData = SQL_NULL_DATA
  · refine ⟨?_, ?_, ?_⟩
    · intro h
      simp [odbc_dbvar_preferred_type, hnull] at h
      exact absurd h.symm his
    · intro h
      simp [odbc_dbvar_preferred_type, hnull] at h
      exact absurd h.symm hds
    · intro _
      simp [odbc_dbvar_getvalue_string, hnull]
  · have hor : ¬ (var.cbData = SQL_NULL_DATA ∨ var.cbData = SQL_NO_DATA) := by
      simp [hnull, hnd]
    cases htype : var.type with
    | ODBC_INTEGER =>
      refine ⟨?_, ?_, ?_⟩
      · intro _
        simp [odbc_dbvar_getvalue_int, htype, hnull, hnd]
      · intro h
        simp [odbc_dbvar_preferred_type, hnull, hnd, htype] at h
        exact absurd h hid
      · intro h
        simp [odbc_dbvar_preferred_type, hnull, hnd, htype] at h
        exact absurd h his
    | ODBC_DOUBLE =>
      refine ⟨?_, ?_, ?_⟩
      · intro h
        simp [odbc_dbvar_preferred_type, hnull, hnd, htype] at h
        exact absurd h.symm hid
      · intro _
        simp [odbc_dbvar_getvalue_double, htype, hnull, hnd]
      · intro h
        simp [odbc_dbvar_preferred_type, hnull, hnd, htype] at h
        exact absurd h hds
    | ODBC_STRING =>
      refine ⟨?_, ?_, ?_⟩
      · intro h
        simp [odbc_dbvar_preferred_type, hnull, hnd, htype] at h
        exact absurd h.symm his
      · intro h
        simp [odbc_dbvar_preferred_type, hnull, hnd, htype] at h
        exact absurd h.symm hds
      · intro _
        simp [odbc_dbvar_getvalue_string, hnull, htype]
    | ODBC_BLOB =>
      refine ⟨?_, ?_, ?_⟩
      · intro h
        simp [odbc_dbvar_preferred_type, hnull, hnd, htype] at h
        exact absurd h.symm his
      · intro h
        simp [odbc_dbvar_preferred_type, hnull, hnd, htype] at h
        exact absurd h.symm hds
      · intro _
        simp only [odbc_dbvar_getvalue_string, if_neg hnull, htype]
        simp only [reduceCtorEq, if_false, if_true]
        split_ifs <;> rfl

/-- C17: for an integer column variable whose length indicator is
`SQL_NO_DATA`, whatever the constants of `mivapi.h` and the driver,
`odbc_dbvar_preferred_type` returns the string type, yet
`odbc_dbvar_getvalue_string` returns 0 and stores nothing, and
`odbc_dbvar_getvalue_int` and `odbc_dbvar_getvalue_double` return 0 as well:
no accessor yields a value. -/
theorem preferred_type_no_data_has_no_accessor {σ : Type} (api : Mivapi)
    (getData : σ → GetDataCall → GetDataResult × σ) (drv : σ) (db : ODBCDatabase) :
    odbc_dbvar_preferred_type api noDataIntVar = api.MVD_TYPE_STRING
    ∧ (odbc_dbvar_getvalue_string api getData drv db noDataIntVar).ret = 0
    ∧ (odbc_dbvar_getvalue_string api getData drv db noDataIntVar).out = none
    ∧ odbc_dbvar_getvalue_int noDataIntVar = (0, none)
    ∧ odbc_dbvar_getvalue_double noDataIntVar = (0, none) := by
  refine ⟨?_, ?_, ?_, by decide, by decide⟩
  · simp [odbc_dbvar_preferred_type, noDataIntVar]
  · simp [odbc_dbvar_getvalue_string, noDataIntVar, SQL_NO_DATA, SQL_NULL_DATA]
  · simp [odbc_dbvar_getvalue_string, noDataIntVar, SQL_NO_DATA, SQL_NULL_DATA]

/-! ### C15: forward-only emulation over a result set -/

theorem resultSetDriver_next_in (N pos irow : Int) (h1 : 1 ≤ pos + 1) (h2 : pos + 1 ≤ N) :
    resultSetDriver N pos ⟨SQL_FETCH_NEXT, irow⟩ = (⟨SQL_SUCCESS, some 0, noDiag⟩, pos + 1) := by
  simp [resultSetDriver, h1, h2]

theorem resultSetDriver_next_out (N pos irow : Int) (h : N < pos + 1) :
    resultSetDriver N pos ⟨SQL_FETCH_NEXT, irow⟩
      = (⟨SQL_NO_DATA_FOUND, none, noDiag⟩, N + 1) := by
  have h2 : ¬ (pos + 1 ≤ N) := by omega
  simp [resultSetDriver, h, h2]

/-- The calls of the forward-only loop that moves from row `c` towards row
`t` in `n` steps: one `SQL_FETCH_NEXT` per step, issued after the row counter
was incremented. -/
theorem forwardLoop_resultSet (N t : Int) (fuel : Nat) (st : LoopState Int)
    (heof : st.view.eof.data_integer = 0) (hpos : st.drv = st.view.recno.data_integer)
    (h0 : 0 ≤ st.view.recno.data_integer) (hN : st.view.recno.data_integer ≤ N)
    (hle : st.view.recno.data_integer ≤ t)
    (hfuel : (t - st.view.recno.data_integer).toNat ≤ fuel) :
    ∃ st1, forwardLoop (resultSetDriver N) t fuel st = .ok st1
      ∧ st1.view.recno.data_integer = min t (N + 1)
      ∧ st1.view.eof.data_integer = (if N < t then 1 else 0)
      ∧ st1.fetches = st.fetches
          ++ (List.range (min t (N + 1) - st.view.recno.data_integer).toNat).map
              (fun k : Nat => (⟨SQL_FETCH_NEXT,
                toInt32 (t - (st.view.recno.data_integer + (k : Int) + 1))⟩ : FetchCall))
      ∧ st1.view.forwardonly = st.view.forwardonly
      ∧ st1.drv = min t (N + 1) := by
  induction fuel generalizing st with
  | zero =>
    have ht : t = st.view.recno.data_integer := by omega
    refine ⟨st, rfl, ?_, ?_, ?_, rfl, ?_⟩
    · rw [ht]; exact (min_eq_left (by omega)).symm
    · rw [heof, if_neg (by omega)]
    · have hz : (min t (N + 1) - st.view.recno.data_integer).toNat = 0 := by
        rw [min_eq_left (by omega)]; omega
      rw [hz]; simp
    · rw [hpos, ht]; exact (min_eq_left (by omega)).symm
  | succ n ih =>
    by_cases hlt : st.view.recno.data_integer < t
    · by_cases hin : st.view.recno.data_integer + 1 ≤ N
      · have hd := resultSetDriver_next_in N st.view.recno.data_integer
          (toInt32 (t - (st.view.recno.data_integer + 1))) (by omega) hin
        have hse : SQL_SUCCESS ≠ SQL_ERROR := by decide
        have hsn : SQL_SUCCESS ≠ SQL_NO_DATA_FOUND := by decide
        obtain ⟨st1, hrun, hrec, heof1, hfetch, hfwd, hdrv⟩ := ih
          { view := { st.view with
                      recno := { st.view.recno with
                                 data_integer := st.view.recno.data_integer + 1 } }
            drv := st.view.recno.data_integer + 1
            rgfStatus := 0
            fetches := st.fetches
              ++ [⟨SQL_FETCH_NEXT, toInt32 (t - (st.view.recno.data_integer + 1))⟩] }
          heof rfl (by simp; omega) hin (by simp; omega) (by simp; omega)
        refine ⟨st1, ?_, hrec, heof1, ?_, hfwd, hdrv⟩
        · simp only [forwardLoop, if_pos (And.intro heof hlt), hpos, hd, if_neg hse, if_neg hsn,
            Option.getD_some]
          exact hrun
        · rw [hfetch]
          have hm : (min t (N + 1) - st.view.recno.data_integer).toNat
              = (min t (N + 1) - (st.view.recno.data_integer + 1)).toNat + 1 := by
            have : st.view.recno.data_integer + 1 ≤ min t (N + 1) := le_min (by omega) (by omega)
            omega
          rw [hm, List.range_succ_eq_map, List.map_cons, List.map_map, List.append_assoc,
            List.singleton_append]
          congr 1
          simp only [List.cons.injEq]
          refine ⟨by simp, List.map_congr_left (fun k _ => ?_)⟩
          simp only [Function.comp, Nat.cast_succ]
          congr 2
          ring
      · have hNeq : st.view.recno.data_integer = N := by omega
        have hd := resultSetDriver_next_out N st.view.recno.data_integer
          (toInt32 (t - (st.view.recno.data_integer + 1))) (by omega)
        have hne : SQL_NO_DATA_FOUND ≠ SQL_ERROR := by decide
        refine ⟨{ view := { st.view with
                      recno := { st.view.recno with
                                 data_integer := st.view.recno.data_integer + 1 }
                      eof := { st.view.eof with data_integer := 1 } }
                  drv := N + 1
                  rgfStatus := st.rgfStatus
                  fetches := st.fetches
                    ++ [⟨SQL_FETCH_NEXT, toInt32 (t - (st.view.recno.data_integer + 1))⟩] },
          ?_, ?_, ?_, ?_, rfl, ?_⟩
        · simp only [forwardLoop, if_pos (And.intro heof hlt), hpos, hd, if_neg hne, if_true,
            Option.getD_none]
          exact forwardLoop_stop _ _ _ _ (by simp)
        · show st.view.recno.data_integer + 1 = min t (N + 1)
          rw [hNeq, min_eq_right (by omega)]
        · show (1 : Int) = if N < t then 1 else 0
          rw [if_pos (show N < t by omega)]
        · have hm : (min t (N + 1) - st.view.recno.data_integer).toNat = 1 := by
            rw [min_eq_right (by omega)]; omega
          rw [hm]
          simp [List.range_succ_eq_map]
        · show N + 1 = min t (N + 1)
          rw [min_eq_right (by omega)]
    · have ht : t = st.view.recno.data_integer := by omega
      refine ⟨st, forwardLoop_stop _ _ _ _ (by simp [hlt]), ?_, ?_, ?_, rfl, ?_⟩
      · rw [ht]; exact (min_eq_left (by omega)).symm
      · rw [heof, if_neg (by omega)]
      · have hz : (min t (N + 1) - st.view.recno.data_integer).toNat = 0 := by
          rw [min_eq_left (by omega)]; omega
        rw [hz]; simp
      · rw [hpos, ht]; exact (min_eq_left (by omega)).symm

/-- C15: over a result set of `N` rows, for a forward-only cursor on row `c`
with `0 <= c <= N`, the end-of-set flag clear and the driver on the same row,
and every target `t > c`: `odbc_load_row` returns 1 after exactly
`min(t, N+1) - c` fetches, all of them `SQL_FETCH_NEXT`, the k-th issued with
the row counter already incremented to `c + k`; the row number ends as
`min(t, N+1)`; the end-of-set flag ends as 1 if `t > N` and as 0 otherwise; and
once it is 1 every further `odbc_load_row` issues no fetch. -/
theorem forward_only_emulation (N c t g : Int) (view : ODBCDatabaseView)
    (hfo : view.forwardonly ≠ 0) (hrec : view.recno.data_integer = c)
    (heof : view.eof.data_integer = 0) (hc0 : 0 ≤ c) (hcN : c ≤ N) (hct : c < t) :
    (odbc_load_row (resultSetDriver N) c view t g).ret = 1
    ∧ (odbc_load_row (resultSetDriver N) c view t g).fetches
        = (List.range (min t (N + 1) - c).toNat).map
            (fun k : Nat => (⟨SQL_FETCH_NEXT, toInt32 (t - (c + (k : Int) + 1))⟩ : FetchCall))
    ∧ ((odbc_load_row (resultSetDriver N) c view t g).fetches.length : Int)
        = min t (N + 1) - c
    ∧ (odbc_load_row (resultSetDriver N) c view t g).view.recno.data_integer = min t (N + 1)
    ∧ (odbc_load_row (resultSetDriver N) c view t g).view.eof.data_integer
        = (if N < t then 1 else 0)
    ∧ (N < t → ∀ row2 g2 : Int,
        (odbc_load_row (resultSetDriver N) (odbc_load_row (resultSetDriver N) c view t g).drv
          (odbc_load_row (resultSetDriver N) c view t g).view row2 g2).fetches = []) := by
  obtain ⟨st1, hrun, hrec1, heof1, hfetch, hfwd, hdrv⟩ := forwardLoop_resultSet N t
    (t - view.recno.data_integer).toNat
    { view := view, drv := c, rgfStatus := g, fetches := [] }
    heof hrec.symm (by simp only [hrec]; exact hc0) (by simp only [hrec]; exact hcN)
    (by simp only [hrec]; omega) (le_refl _)
  have hval : odbc_load_row (resultSetDriver N) c view t g = finishLoad st1 := by
    simp only [odbc_load_row, if_pos hfo, hrun]
  simp only [List.nil_append, hrec] at hfetch
  have hmin : c ≤ min t (N + 1) := le_min (by omega) (by omega)
  rw [hval]
  refine ⟨rfl, hfetch, ?_, hrec1, heof1, ?_⟩
  · show ((st1.fetches.length : Nat) : Int) = min t (N + 1) - c
    rw [hfetch, List.length_map, List.length_range]
    omega
  · intro hNt row2 g2
    have hfo1 : (finishLoad st1).view.forwardonly ≠ 0 := by
      show st1.view.forwardonly ≠ 0
      rw [hfwd]; exact hfo
    have heof2 : (finishLoad st1).view.eof.data_integer = 1 := by
      show st1.view.eof.data_integer = 1
      rw [heof1, if_pos hNt]
    exact (forward_no_fetch_deleted (resultSetDriver N) (finishLoad st1).drv (finishLoad st1).view
      row2 g2 hfo1 (by rw [heof2]; simp)).2.1

/-- Witness for C15: a forward-only cursor on row 1 of a three-row result
set; the request for row 3 issues two fetches and ends on row 3 with
end-of-set clear, the request for row 9 issues three fetches and ends with row
number 4 and end-of-set set. -/
theorem forward_only_emulation_witness :
    (sampleView 1 1).forwardonly ≠ 0
    ∧ (sampleView 1 1).recno.data_integer = 1
    ∧ (sampleView 1 1).eof.data_integer = 0
    ∧ ((odbc_load_row (resultSetDriver 3) 1 (sampleView 1 1) 3 0).fetches.length : Int) = 2
    ∧ (odbc_load_row (resultSetDriver 3) 1 (sampleView 1 1) 3 0).view.eof.data_integer = 0
    ∧ ((odbc_load_row (resultSetDriver 3) 1 (sampleView 1 1) 9 0).fetches.length : Int) = 3
    ∧ (odbc_load_row (resultSetDriver 3) 1 (sampleView 1 1) 9 0).view.recno.data_integer = 4
    ∧ (odbc_load_row (resultSetDriver 3) 1 (sampleView 1 1) 9 0).view.eof.data_integer = 1 :=
  have h3 := forward_only_emulation 3 1 3 0 (sampleView 1 1) (by decide) rfl rfl (by decide)
    (by decide) (by decide)
  have h9 := forward_only_emulation 3 1 9 0 (sampleView 1 1) (by decide) rfl rfl (by decide)
    (by decide) (by decide)
  ⟨by decide, rfl, rfl, h3.2.2.1.trans (by decide), h3.2.2.2.2.1.trans (by decide),
   h9.2.2.1.trans (by decide), h9.2.2.2.1.trans (by decide), h9.2.2.2.2.1.trans (by decide)⟩

/-! ### C6: the blocks of the diagnostic message -/

theorem strlen_nonneg (s : String) : 0 ≤ strlen s := Int.natCast_nonneg _

theorem capacityAfterRecord_le (r : Int) (d : DiagRec) : capacityAfterRecord r d ≤ r := by
  have h1 := strlen_nonneg d.state
  have h2 := strlen_nonneg d.text
  unfold capacityAfterRecord
  simp only
  split_ifs <;> omega

/-- One record, with room for its state code: the code appends exactly the
blocks that fit and deducts them. -/
theorem appendRecord_by_capacity (acc : String × Int) (d : DiagRec)
    (hcap : acc.2 ≤ 1023) (hroom : strlen d.state + 2 ≤ acc.2) :
    appendRecord acc d
      = (acc.1 ++ recordBlocks d (decide (acc.2 > strlen d.state + 2))
            (decide ((if acc.2 > strlen d.state + 2 then acc.2 - (strlen d.state + 2)
              else acc.2) - strlen d.text > 0)),
         capacityAfterRecord acc.2 d) := by
  have h1 := strlen_nonneg d.state
  have h2 := strlen_nonneg d.text
  have hstate : toSizeT (acc.2 - (strlen d.state + 2)) > 0 ↔ acc.2 > strlen d.state + 2 := by
    unfold toSizeT; omega
  have hrem : toInt32 (toSizeT (acc.2 - (strlen d.state + 2))) = acc.2 - (strlen d.state + 2) := by
    unfold toInt32 toSizeT; omega
  unfold appendRecord capacityAfterRecord
  simp only [DiagRec.text_length, hrem]
  by_cases hs : acc.2 > strlen d.state + 2
  · rw [if_pos (hstate.mpr hs)]
    simp only [if_pos hs]
    by_cases ht : acc.2 - (strlen d.state + 2) - strlen d.text > 0
    · simp [ht, hs, recordBlocks, String.append_assoc]
    · simp [ht, hs, recordBlocks, String.append_assoc]
  · rw [if_neg (fun h => hs (hstate.mp h))]
    simp only [if_neg hs]
    by_cases ht : acc.2 - strlen d.text > 0
    · simp [ht, hs, recordBlocks]
    · simp [ht, hs, recordBlocks]

theorem foldl_appendRecord_by_capacity (recs : List DiagRec) (acc : String × Int)
    (hcap : acc.2 ≤ 1023) (hroom : stateRoom acc.2 recs = true) :
    (recs.foldl appendRecord acc).1 = acc.1 ++ blocksByCapacity acc.2 recs := by
  induction recs generalizing acc with
  | nil => simp [blocksByCapacity]
  | cons d ds ih =>
    simp only [stateRoom, Bool.and_eq_true, decide_eq_true_eq] at hroom
    have hstep := appendRecord_by_capacity acc d hcap hroom.1
    have hle := capacityAfterRecord_le acc.2 d
    rw [List.foldl_cons, ih (appendRecord acc d) (by rw [hstep]; exact le_trans hle hcap)
      (by rw [hstep]; exact hroom.2), hstep, blocksByCapacity, String.append_assoc]

theorem recordsSize_nonneg (recs : List DiagRec) : 0 ≤ recordsSize recs := by
  induction recs with
  | nil => exact le_refl _
  | cons d ds ih =>
    have h1 := strlen_nonneg d.state
    have h2 := strlen_nonneg d.text
    simp only [recordsSize]
    omega

/-- When all records fit, every state code has room and every block is
appended. -/
theorem blocksByCapacity_all_fit (recs : List DiagRec) (r : Int) (hfit : recordsSize recs < r) :
    stateRoom r recs = true ∧ blocksByCapacity r recs = renderRecords recs := by
  induction recs generalizing r with
  | nil => exact ⟨rfl, rfl⟩
  | cons d ds ih =>
    have h1 := strlen_nonneg d.state
    have h2 := strlen_nonneg d.text
    have h3 := recordsSize_nonneg ds
    simp only [recordsSize] at hfit
    have hs : r > strlen d.state + 2 := by omega
    have ht : r - (strlen d.state + 2) - strlen d.text > 0 := by omega
    have hcapa : capacityAfterRecord r d = r - (strlen d.state + 2) - strlen d.text := by
      simp only [capacityAfterRecord, if_pos hs, if_pos ht]
    obtain ⟨hroom, hblocks⟩ := ih (capacityAfterRecord r d) (by rw [hcapa]; omega)
    refine ⟨?_, ?_⟩
    · simp only [stateRoom, Bool.and_eq_true, decide_eq_true_eq]
      exact ⟨by omega, hroom⟩
    · simp only [blocksByCapacity, if_pos hs, hs, ht, decide_True, recordBlocks, if_true, hblocks,
        renderRecords, renderRecord]

/-- C6, as amended: for every prefix and every non-empty sequence of
diagnostic records in which no state code arrives with fewer characters of
capacity remaining than its "state: " block is long, the message of
`odbc_error` is the prefix followed, in driver order, by exactly the blocks
that fit: with `r` the remaining capacity (1023 minus the prefix length at the
start, reduced by every appended block) a record's "state: " block is appended
if and only if `r` exceeds its length, and then its text if and only if the
capacity then left exceeds the text length; blocks are appended whole, and the
records that follow a block that was left out are still handled.  In
particular, when all records fit the message is the prefix followed by
"state: text" of every record. -/
theorem odbc_error_blocks_by_capacity (pfx : String) (r : DiagRec) (rs : List DiagRec)
    (legacy : Option DiagRec) (handle_type : Int) :
    (stateRoom (1023 - strlen pfx) (r :: rs) = true →
      odbc_error_message pfx ⟨r :: rs, legacy⟩ handle_type
        = pfx ++ blocksByCapacity (1023 - strlen pfx) (r :: rs))
    ∧ (recordsSize (r :: rs) < 1023 - strlen pfx →
      odbc_error_message pfx ⟨r :: rs, legacy⟩ handle_type
        = pfx ++ renderRecords (r :: rs)) := by
  have hp := strlen_nonneg pfx
  have hs := strlen_nonneg r.state
  have key : stateRoom (1023 - strlen pfx) (r :: rs) = true →
      odbc_error_message pfx ⟨r :: rs, legacy⟩ handle_type
        = pfx ++ blocksByCapacity (1023 - strlen pfx) (r :: rs) := by
    intro hroom
    have hfirst : strlen r.state + 2 ≤ 1023 - strlen pfx := by
      simp only [stateRoom, Bool.and_eq_true, decide_eq_true_eq] at hroom
      exact hroom.1
    have hinit : toInt32 (toSizeT (toSizeT (ERROR_SIZE - strlen pfx) - 1)) = 1023 - strlen pfx := by
      unfold toInt32 toSizeT ERROR_SIZE; omega
    simp only [odbc_error_message, hinit]
    exact foldl_appendRecord_by_capacity (r :: rs) (pfx, 1023 - strlen pfx) (by simp; omega) hroom
  refine ⟨key, ?_⟩
  intro hfit
  obtain ⟨hroom, hblocks⟩ := blocksByCapacity_all_fit (r :: rs) (1023 - strlen pfx) hfit
  rw [key hroom, hblocks]

set_option maxRecDepth 100000 in
/-- Witness for C6 as amended: with the prefix "SQLExecute: ", the records
("HY000", a text of 1100 characters), ("01000", "ok") give
"SQLExecute: HY000: 01000: ok", and the records ("42000", "syntax error"),
("01000", "ok"), which fit, give both in full. -/
theorem odbc_error_blocks_by_capacity_witness :
    stateRoom (1023 - strlen "SQLExecute: ") oversizedThenShort.recs = true
    ∧ odbc_error_message "SQLExecute: " oversizedThenShort SQL_HANDLE_STMT
        = "SQLExecute: HY000: 01000: ok"
    ∧ recordsSize fittingRecords.recs < 1023 - strlen "SQLExecute: "
    ∧ odbc_error_message "SQLExecute: " fittingRecords SQL_HANDLE_STMT
        = "SQLExecute: 42000: syntax error01000: ok" :=
  ⟨by decide,
   ((odbc_error_blocks_by_capacity "SQLExecute: " ⟨"HY000", textOfLength 1100⟩ [⟨"01000", "ok"⟩]
      none SQL_HANDLE_STMT).1 (by decide)).trans (by decide),
   by decide,
   ((odbc_error_blocks_by_capacity "SQLExecute: " ⟨"42000", "syntax error"⟩ [⟨"01000", "ok"⟩]
      none SQL_HANDLE_STMT).2 (by decide)).trans (by decide)⟩

/-! ### C13: the capacity of a string column -/

theorem bindColumnsFrom_success (db : ODBCDatabase) (drv : ColumnDriver) (count : Nat) (i : Int)
    (hdesc : ∀ j, (drv.describeCol j).ret = SQL_SUCCESS)
    (hbind : ∀ c, drv.bindCol c = SQL_SUCCESS) :
    bindColumnsFrom db drv count i = { ret := 1, db := db, added := columnsOf drv count i } := by
  induction count generalizing i with
  | zero => rfl
  | succ n ih =>
    have hd : ¬ (drv.describeCol i).ret ≠ SQL_SUCCESS := by simp [hdesc i]
    simp only [bindColumnsFrom, if_neg hd, columnsOf]
    split
    · rename_i call _
      have hb : ¬ drv.bindCol call ≠ SQL_SUCCESS := by simp [hbind call]
      simp only [if_neg hb, ih (i + 1)]
    · simp only [ih (i + 1)]

/-- When the driver describes and binds every column, `odbc_bind_columns`
returns 1 and adds the three synthetic variables followed by one variable per
result column, each classified by the `switch`. -/
theorem odbc_bind_columns_success (db : ODBCDatabase) (drv : ColumnDriver)
    (hnum : drv.numResultColsRet = SQL_SUCCESS)
    (hdesc : ∀ j, (drv.describeCol j).ret = SQL_SUCCESS)
    (hbind : ∀ c, drv.bindCol c = SQL_SUCCESS) :
    odbc_bind_columns db drv
      = { ret := 1, db := db, added := specialVariables ++ columnsOf drv drv.nCols.toNat 1 } := by
  have hn : ¬ drv.numResultColsRet ≠ SQL_SUCCESS := by simp [hnum]
  simp only [odbc_bind_columns, if_neg hn, bindColumnsFrom_success db drv _ 1 hdesc hbind]

/-- C13: for a result set whose one column the driver describes as
`SQL_VARCHAR` with precision 2147483647 and scale 0, `odbc_bind_columns`
returns 1 and adds, after the three synthetic variables, a string-typed
variable whose capacity `data_string_size` is -2147483648, which is also the
buffer length it passes to `SQLBindCol`; precision + scale + 1 is 2147483648.
The sum is computed in the unsigned 32 bits of `ibPrecision` and stored into
the signed 32-bit `data_string_size`. -/
theorem odbc_bind_columns_capacity_overflow :
    (odbc_bind_columns sampleDb (oneColumnDriver SQL_VARCHAR 2147483647 0)).ret = 1
    ∧ (odbc_bind_columns sampleDb (oneColumnDriver SQL_VARCHAR 2147483647 0)).added
        = specialVariables
          ++ [("c", { ODBCDatabaseVariable.zero with
                      type := ODBC_STRING, column := 1
                      data_string_size := -2147483648
                      data_string := some [] })]
    ∧ (columnSlot 1 SQL_VARCHAR 2147483647 0).2 = some ⟨1, SQL_C_CHAR, -2147483648⟩
    ∧ (2147483647 : Int) + 0 + 1 ≠ -2147483648 := by
  decide

end MVDODBC
